import Mathlib

/-!
# Verification of the npm-chess core engine

A shallow embedding of the npm-chess TypeScript chess engine
(`src/engine/board.ts`, `src/engine/pieces.ts`, `src/engine/moves.ts`,
`src/engine/game.ts`, `src/engine/fen.ts`, `src/ai/evaluation.ts`,
`src/ai/minimax.ts`) together with proofs and refutations of the frozen
specification claims.

Modelling conventions:
* Mutable classes become immutable structures with explicit state passing;
  a JS method that mutates `this` becomes a function returning the new value.
* JS `number` becomes `Int` (board arithmetic can go negative); counters
  that are only ever non-negative become `Nat`.
* JS `string` squares stay `String` so that malformed square labels are
  representable.
* `null`/`undefined` become `Option`.
* Thrown exceptions become `Except String`.
* JS while-loops over the 8×8 board become fuel-based recursion with fuel 8,
  which is an upper bound on the number of iterations on an 8-wide board.
-/

namespace Chess

/-- Piece colors (`Color` in `src/types/index.ts`). -/
inductive Color where
  | white
  | black
deriving DecidableEq, Repr

/-- Piece kinds (`PieceType` in `src/types/index.ts`). -/
inductive PieceType where
  | pawn
  | knight
  | bishop
  | rook
  | queen
  | king
deriving DecidableEq, Repr

/-- A chess piece (`Piece` in `src/types/index.ts`). -/
structure Piece where
  type : PieceType
  color : Color
deriving DecidableEq, Repr

/-- Board coordinates (`Coordinates` in `src/types/index.ts`).
JS numbers may leave the 0–7 range during move generation, hence `Int`. -/
structure Coordinates where
  row : Int
  col : Int
deriving DecidableEq, Repr

/-- Squares are plain strings in the source (`type Square = string`). -/
abbrev Square := String

/-- The 8×8 grid of `src/engine/board.ts` (`board[row][col]`,
row 0 = rank 1, col 0 = file a). -/
structure Board where
  grid : Fin 8 → Fin 8 → Option Piece

instance : DecidableEq Board := fun a b =>
  decidable_of_iff (∀ r c, a.grid r c = b.grid r c)
    ⟨fun h => by cases a; cases b; simp only [Board.mk.injEq]; funext r c; exact h r c,
     fun h r c => by rw [h]⟩

/-- `Board.isValidCoords` from `board.ts` (does not use the board itself). -/
def Board.isValidCoords (row col : Int) : Bool :=
  decide (0 ≤ row ∧ row ≤ 7 ∧ 0 ≤ col ∧ col ≤ 7)

/-- `Board.getPieceAt` from `board.ts`: bounds-checked grid read. -/
def Board.getPieceAt (b : Board) (row col : Int) : Option Piece :=
  if h : 0 ≤ row ∧ row ≤ 7 ∧ 0 ≤ col ∧ col ≤ 7 then
    b.grid ⟨row.toNat, by omega⟩ ⟨col.toNat, by omega⟩
  else none

/-- `Board.setPieceAt` from `board.ts`: bounds-checked grid write. -/
def Board.setPieceAt (b : Board) (row col : Int) (p : Option Piece) : Board :=
  if h : 0 ≤ row ∧ row ≤ 7 ∧ 0 ≤ col ∧ col ≤ 7 then
    ⟨fun r c =>
      if r = (⟨row.toNat, by omega⟩ : Fin 8) ∧ c = (⟨col.toNat, by omega⟩ : Fin 8) then p
      else b.grid r c⟩
  else b

/-- Value of a single digit character, modelling JS `parseInt` applied to a
one-character string: an ASCII digit parses to its value, anything else is
`NaN` (here `none`). -/
def charDigit (c : Char) : Option Nat :=
  if 48 ≤ c.toNat ∧ c.toNat ≤ 57 then some (c.toNat - 48) else none

/-- `Board.squareToCoords` from `board.ts`: parse a two-character label such
as `"e4"`; invalid labels give `none`. -/
def squareToCoords (s : Square) : Option Coordinates :=
  match s.data with
  | [file, rank] =>
    let col : Int := (file.toNat : Int) - 97
    match charDigit rank with
    | some d =>
      let row : Int := (d : Int) - 1
      if 0 ≤ col ∧ col ≤ 7 ∧ 0 ≤ row ∧ row ≤ 7 then some ⟨row, col⟩ else none
    | none => none
  | _ => none

/-- `Board.coordsToSquare` from `board.ts`. -/
def coordsToSquare (row col : Int) : Option Square :=
  if 0 ≤ row ∧ row ≤ 7 ∧ 0 ≤ col ∧ col ≤ 7 then
    some (String.mk [Char.ofNat (97 + col).toNat, Char.ofNat (49 + row).toNat])
  else none

/-- The always-valid square label of in-range coordinates; used where the
source calls `coordsToSquare` on indices that are in range by construction. -/
def squareOfFin (r c : Fin 8) : Square :=
  String.mk [Char.ofNat (97 + c.val), Char.ofNat (49 + r.val)]

/-- `Board.getPiece` from `board.ts`. -/
def Board.getPiece (b : Board) (s : Square) : Option Piece :=
  match squareToCoords s with
  | none => none
  | some c => b.getPieceAt c.row c.col

/-- `Board.setPiece` from `board.ts`. -/
def Board.setPiece (b : Board) (s : Square) (p : Option Piece) : Board :=
  match squareToCoords s with
  | none => b
  | some c => b.setPieceAt c.row c.col p

/-- `Board.movePiece` from `board.ts` (its returned captured piece is unused
at every call site, so we return only the new board). -/
def Board.movePiece (b : Board) (fromSq toSq : Square) : Board :=
  match squareToCoords fromSq, squareToCoords toSq with
  | some f, some t =>
    let piece := b.getPieceAt f.row f.col
    (b.setPieceAt t.row t.col piece).setPieceAt f.row f.col none
  | _, _ => b

/-- `Board.isValidSquare` from `board.ts`. -/
def Board.isValidSquare (s : Square) : Bool :=
  (squareToCoords s).isSome

/-- `Board.isEmpty` from `board.ts`. -/
def Board.isEmpty (b : Board) (s : Square) : Bool :=
  (b.getPiece s).isNone

/-- `Board.findPieces` from `board.ts`: all pieces of a color with their
squares, scanned row-major (row 0 first). -/
def Board.findPieces (b : Board) (color : Color) : List (Square × Piece) :=
  (List.finRange 8).flatMap fun r =>
    (List.finRange 8).filterMap fun c =>
      match b.grid r c with
      | some p => if p.color = color then some (squareOfFin r c, p) else none
      | none => none

/-- `Board.findKing` from `board.ts`: first king of the color in row-major
scan order. -/
def Board.findKing (b : Board) (color : Color) : Option Square :=
  ((List.finRange 8).flatMap fun r =>
    (List.finRange 8).filterMap fun c =>
      match b.grid r c with
      | some p =>
        if p.type = PieceType.king ∧ p.color = color then some (squareOfFin r c) else none
      | none => none).head?

/-- The empty board (`createEmptyBoard` in `board.ts`). -/
def emptyBoard : Board := ⟨fun _ _ => none⟩

/-- Back-rank piece order used by `setupStartingPosition` in `board.ts`. -/
def backRankPieces : List PieceType :=
  [.rook, .knight, .bishop, .queen, .king, .bishop, .knight, .rook]

/-- `Board.setupStartingPosition` from `board.ts`, as the board it produces. -/
def setupStartingPosition : Board :=
  let b1 := (List.range 8).foldl
    (fun b col =>
      (b.setPieceAt 1 (col : Int) (some ⟨.pawn, .white⟩)).setPieceAt 6 (col : Int)
        (some ⟨.pawn, .black⟩))
    emptyBoard
  let b2 := backRankPieces.enum.foldl
    (fun b ic => b.setPieceAt 0 (ic.1 : Int) (some ⟨ic.2, .white⟩)) b1
  backRankPieces.enum.foldl
    (fun b ic => b.setPieceAt 7 (ic.1 : Int) (some ⟨ic.2, .black⟩)) b2

/-! ## Attack calculator (`src/engine/pieces.ts`) -/

/-- `DIRECTIONS.ORTHOGONAL` from `pieces.ts`. -/
def dirOrthogonal : List (Int × Int) := [(-1, 0), (1, 0), (0, -1), (0, 1)]

/-- `DIRECTIONS.DIAGONAL` from `pieces.ts`. -/
def dirDiagonal : List (Int × Int) := [(-1, -1), (-1, 1), (1, -1), (1, 1)]

/-- `DIRECTIONS.KNIGHT` from `pieces.ts`. -/
def dirKnight : List (Int × Int) :=
  [(-2, -1), (-2, 1), (-1, -2), (-1, 2), (1, -2), (1, 2), (2, -1), (2, 1)]

/-- `DIRECTIONS.ALL` from `pieces.ts`. -/
def dirAll : List (Int × Int) :=
  [(-1, 0), (1, 0), (0, -1), (0, 1), (-1, -1), (-1, 1), (1, -1), (1, 1)]

/-- One direction of the while-loop in `getSlidingMoves` (`pieces.ts`),
with fuel 8 (the loop makes at most 7 steps on an 8-wide board). -/
def slideInDirection (b : Board) (color : Color) (dRow dCol : Int) :
    Nat → Int → Int → List Coordinates
  | 0, _, _ => []
  | fuel + 1, row, col =>
    if Board.isValidCoords row col then
      match b.getPieceAt row col with
      | none => ⟨row, col⟩ :: slideInDirection b color dRow dCol fuel (row + dRow) (col + dCol)
      | some p => if p.color ≠ color then [⟨row, col⟩] else []
    else []

/-- `getSlidingMoves` from `pieces.ts`. -/
def getSlidingMoves (b : Board) (fromC : Coordinates) (color : Color)
    (directions : List (Int × Int)) : List Coordinates :=
  directions.flatMap fun d =>
    slideInDirection b color d.1 d.2 8 (fromC.row + d.1) (fromC.col + d.2)

/-- `getJumpMoves` from `pieces.ts`. -/
def getJumpMoves (b : Board) (fromC : Coordinates) (color : Color)
    (directions : List (Int × Int)) : List Coordinates :=
  directions.filterMap fun d =>
    let targetRow := fromC.row + d.1
    let targetCol := fromC.col + d.2
    if Board.isValidCoords targetRow targetCol then
      match b.getPieceAt targetRow targetCol with
      | none => some ⟨targetRow, targetCol⟩
      | some p => if p.color ≠ color then some ⟨targetRow, targetCol⟩ else none
    else none

/-- `getPawnMoves` from `pieces.ts`. -/
def getPawnMoves (b : Board) (fromC : Coordinates) (color : Color) : List Coordinates :=
  let direction : Int := if color = .white then 1 else -1
  let startRank : Int := if color = .white then 1 else 6
  let forward :=
    if Board.isValidCoords (fromC.row + direction) fromC.col ∧
        b.getPieceAt (fromC.row + direction) fromC.col = none then
      (⟨fromC.row + direction, fromC.col⟩ : Coordinates) ::
        (if fromC.row = startRank then
          (if Board.isValidCoords (fromC.row + direction * 2) fromC.col ∧
              b.getPieceAt (fromC.row + direction * 2) fromC.col = none then
            [⟨fromC.row + direction * 2, fromC.col⟩]
          else [])
        else [])
    else []
  let captures := ([-1, 1] : List Int).filterMap fun offset =>
    let captureRow := fromC.row + direction
    let captureCol := fromC.col + offset
    if Board.isValidCoords captureRow captureCol then
      match b.getPieceAt captureRow captureCol with
      | some target => if target.color ≠ color then some ⟨captureRow, captureCol⟩ else none
      | none => none
    else none
  forward ++ captures

/-- `getPseudoLegalMoves` from `pieces.ts`. -/
def getPseudoLegalMoves (b : Board) (fromC : Coordinates) (pieceType : PieceType)
    (color : Color) : List Coordinates :=
  match pieceType with
  | .pawn => getPawnMoves b fromC color
  | .knight => getJumpMoves b fromC color dirKnight
  | .bishop => getSlidingMoves b fromC color dirDiagonal
  | .rook => getSlidingMoves b fromC color dirOrthogonal
  | .queen => getSlidingMoves b fromC color dirAll
  | .king => getJumpMoves b fromC color dirAll

/-- One sliding-attack ray of `isSquareUnderAttack` (`pieces.ts`), fuel 8. -/
def attackRay (b : Board) (attackingColor : Color) (types : List PieceType)
    (dRow dCol : Int) : Nat → Int → Int → Bool
  | 0, _, _ => false
  | fuel + 1, row, col =>
    if Board.isValidCoords row col then
      match b.getPieceAt row col with
      | some p => decide (p.color = attackingColor ∧ p.type ∈ types)
      | none => attackRay b attackingColor types dRow dCol fuel (row + dRow) (col + dCol)
    else false

/-- `isSquareUnderAttack` from `pieces.ts`. -/
def isSquareUnderAttack (b : Board) (square : Coordinates) (attackingColor : Color) : Bool :=
  let pawnDirection : Int := if attackingColor = .white then 1 else -1
  let pawnHit := ([-1, 1] : List Int).any fun offset =>
    let pawnRow := square.row - pawnDirection
    let pawnCol := square.col + offset
    Board.isValidCoords pawnRow pawnCol &&
      match b.getPieceAt pawnRow pawnCol with
      | some p => decide (p.type = .pawn ∧ p.color = attackingColor)
      | none => false
  let knightHit := dirKnight.any fun d =>
    Board.isValidCoords (square.row + d.1) (square.col + d.2) &&
      match b.getPieceAt (square.row + d.1) (square.col + d.2) with
      | some p => decide (p.type = .knight ∧ p.color = attackingColor)
      | none => false
  let kingHit := dirAll.any fun d =>
    Board.isValidCoords (square.row + d.1) (square.col + d.2) &&
      match b.getPieceAt (square.row + d.1) (square.col + d.2) with
      | some p => decide (p.type = .king ∧ p.color = attackingColor)
      | none => false
  let diagonalHit := dirDiagonal.any fun d =>
    attackRay b attackingColor [.bishop, .queen] d.1 d.2 8 (square.row + d.1) (square.col + d.2)
  let orthogonalHit := dirOrthogonal.any fun d =>
    attackRay b attackingColor [.rook, .queen] d.1 d.2 8 (square.row + d.1) (square.col + d.2)
  pawnHit || knightHit || kingHit || diagonalHit || orthogonalHit

/-- `isKingInCheck` from `pieces.ts`. -/
def isKingInCheck (b : Board) (kingColor : Color) : Bool :=
  match b.findKing kingColor with
  | none => false
  | some kingSquare =>
    match squareToCoords kingSquare with
    | none => false
    | some kingCoords =>
      isSquareUnderAttack b kingCoords (if kingColor = .white then .black else .white)

/-! ## Move generator (`src/engine/moves.ts`) -/

/-- Castling kinds (`'kingside' | 'queenside'` in the source). -/
inductive CastlingSide where
  | kingside
  | queenside
deriving DecidableEq, Repr

/-- `CastlingRights` from `src/types/index.ts`. -/
structure CastlingRights where
  whiteKingside : Bool
  whiteQueenside : Bool
  blackKingside : Bool
  blackQueenside : Bool
deriving DecidableEq, Repr

/-- `Move` from `src/types/index.ts`; optional fields are `undefined`
(`none`) unless set. -/
structure Move where
  fromSq : Square
  toSq : Square
  piece : Piece
  captured : Option Piece := none
  promotion : Option PieceType := none
  castling : Option CastlingSide := none
  enPassant : Option Bool := none
  san : Option String := none
  check : Option Bool := none
  checkmate : Option Bool := none
deriving DecidableEq, Repr

/-- `MoveOptions` from `src/types/index.ts`. -/
structure MoveOptions where
  fromSq : Square
  toSq : Square
  promotion : Option PieceType := none
deriving DecidableEq, Repr

/-- `MoveValidation` from `src/types/index.ts`. -/
structure MoveValidation where
  valid : Bool
  error : Option String := none
deriving DecidableEq, Repr

/-- The state captured by the `MoveGenerator` class constructor
(`board`, `castlingRights`, `enPassantSquare`). -/
structure MoveGenerator where
  board : Board
  castlingRights : CastlingRights
  enPassantSquare : Option Square
deriving DecidableEq

/-- `MoveGenerator.isMoveLegal`: move the piece on a cloned board (cloning is
implicit in the pure model) and test whether the mover's king is in check. -/
def MoveGenerator.isMoveLegal (gen : MoveGenerator) (fromSq toSq : Square)
    (color : Color) : Bool :=
  let clonedBoard := gen.board.movePiece fromSq toSq
  !(isKingInCheck clonedBoard color)

/-- `MoveGenerator.isPawnPromotionRank` from `moves.ts`. -/
def isPawnPromotionRank (rank : Int) (color : Color) : Bool :=
  decide ((color = .white ∧ rank = 7) ∨ (color = .black ∧ rank = 0))

/-- Promotion piece order used in `generateLegalMovesFrom` (`moves.ts`). -/
def promotionPieces : List PieceType := [.queen, .rook, .bishop, .knight]

/-- `MoveGenerator.getEnPassantMove` from `moves.ts`. -/
def MoveGenerator.getEnPassantMove (gen : MoveGenerator) (fromSq : Square)
    (color : Color) : Option Move :=
  match gen.enPassantSquare with
  | none => none
  | some eps =>
    match squareToCoords fromSq, squareToCoords eps with
    | some fromCoords, some enPassantCoords =>
      let direction : Int := if color = .white then 1 else -1
      let canCapture := enPassantCoords.row = fromCoords.row + direction ∧
        (enPassantCoords.col - fromCoords.col).natAbs = 1
      if canCapture then
        if gen.isMoveLegal fromSq eps color then
          let capturedPawnRank : Int :=
            if color = .white then enPassantCoords.row - 1 else enPassantCoords.row + 1
          let capturedPawn :=
            match coordsToSquare capturedPawnRank enPassantCoords.col with
            | some sq => gen.board.getPiece sq
            | none => none
          some { fromSq := fromSq, toSq := eps, piece := ⟨.pawn, color⟩,
                 captured := capturedPawn, enPassant := some true }
        else none
      else none
    | _, _ => none

/-- `MoveGenerator.canCastleKingside` from `moves.ts`. -/
def MoveGenerator.canCastleKingside (gen : MoveGenerator) (color : Color) : Bool :=
  let hasRights :=
    if color = .white then gen.castlingRights.whiteKingside else gen.castlingRights.blackKingside
  if !hasRights then false
  else
    let rankCh : Char := if color = .white then '1' else '8'
    let kingOk :=
      match gen.board.getPiece (String.mk ['e', rankCh]) with
      | some king => decide (king.type = .king ∧ king.color = color)
      | none => false
    let rookOk :=
      match gen.board.getPiece (String.mk ['h', rankCh]) with
      | some rook => decide (rook.type = .rook ∧ rook.color = color)
      | none => false
    if !kingOk then false
    else if !rookOk then false
    else if !(gen.board.isEmpty (String.mk ['f', rankCh]) &&
        gen.board.isEmpty (String.mk ['g', rankCh])) then false
    else if isKingInCheck gen.board color then false
    else
      let opponentColor : Color := if color = .white then .black else .white
      match squareToCoords (String.mk ['f', rankCh]), squareToCoords (String.mk ['g', rankCh]) with
      | some f, some g =>
        !(isSquareUnderAttack gen.board f opponentColor ||
          isSquareUnderAttack gen.board g opponentColor)
      | _, _ => false

/-- `MoveGenerator.canCastleQueenside` from `moves.ts`. -/
def MoveGenerator.canCastleQueenside (gen : MoveGenerator) (color : Color) : Bool :=
  let hasRights :=
    if color = .white then gen.castlingRights.whiteQueenside else gen.castlingRights.blackQueenside
  if !hasRights then false
  else
    let rankCh : Char := if color = .white then '1' else '8'
    let kingOk :=
      match gen.board.getPiece (String.mk ['e', rankCh]) with
      | some king => decide (king.type = .king ∧ king.color = color)
      | none => false
    let rookOk :=
      match gen.board.getPiece (String.mk ['a', rankCh]) with
      | some rook => decide (rook.type = .rook ∧ rook.color = color)
      | none => false
    if !kingOk then false
    else if !rookOk then false
    else if !(gen.board.isEmpty (String.mk ['b', rankCh]) &&
        gen.board.isEmpty (String.mk ['c', rankCh]) &&
        gen.board.isEmpty (String.mk ['d', rankCh])) then false
    else if isKingInCheck gen.board color then false
    else
      let opponentColor : Color := if color = .white then .black else .white
      match squareToCoords (String.mk ['c', rankCh]), squareToCoords (String.mk ['d', rankCh]) with
      | some c, some d =>
        !(isSquareUnderAttack gen.board c opponentColor ||
          isSquareUnderAttack gen.board d opponentColor)
      | _, _ => false

/-- `MoveGenerator.getCastlingMoves` from `moves.ts`. -/
def MoveGenerator.getCastlingMoves (gen : MoveGenerator) (color : Color) : List Move :=
  match color with
  | .white =>
    (if gen.canCastleKingside .white then
      [{ fromSq := "e1", toSq := "g1", piece := ⟨.king, .white⟩, castling := some .kingside }]
    else []) ++
    (if gen.canCastleQueenside .white then
      [{ fromSq := "e1", toSq := "c1", piece := ⟨.king, .white⟩, castling := some .queenside }]
    else [])
  | .black =>
    (if gen.canCastleKingside .black then
      [{ fromSq := "e8", toSq := "g8", piece := ⟨.king, .black⟩, castling := some .kingside }]
    else []) ++
    (if gen.canCastleQueenside .black then
      [{ fromSq := "e8", toSq := "c8", piece := ⟨.king, .black⟩, castling := some .queenside }]
    else [])

/-- `MoveGenerator.generateLegalMovesFrom` from `moves.ts`: pseudo-legal
targets filtered by `isMoveLegal`, promotion expansion, en passant, castling. -/
def MoveGenerator.generateLegalMovesFrom (gen : MoveGenerator) (fromSq : Square)
    (color : Color) : List Move :=
  match gen.board.getPiece fromSq with
  | none => []
  | some piece =>
    if piece.color ≠ color then []
    else
      match squareToCoords fromSq with
      | none => []
      | some fromCoords =>
        let pseudoLegalMoves := getPseudoLegalMoves gen.board fromCoords piece.type color
        let legalMoves := pseudoLegalMoves.flatMap fun toCoords =>
          match coordsToSquare toCoords.row toCoords.col with
          | none => []
          | some toSq =>
            if gen.isMoveLegal fromSq toSq color then
              let captured := gen.board.getPiece toSq
              let move : Move :=
                { fromSq := fromSq, toSq := toSq, piece := piece, captured := captured }
              if piece.type = .pawn ∧ isPawnPromotionRank toCoords.row color then
                promotionPieces.map fun promotion => { move with promotion := some promotion }
              else [move]
            else []
        let withEnPassant := legalMoves ++
          (if piece.type = .pawn ∧ gen.enPassantSquare.isSome then
            (gen.getEnPassantMove fromSq color).toList
          else [])
        withEnPassant ++ (if piece.type = .king then gen.getCastlingMoves color else [])

/-- `MoveGenerator.generateLegalMoves` from `moves.ts`. -/
def MoveGenerator.generateLegalMoves (gen : MoveGenerator) (color : Color) : List Move :=
  (gen.board.findPieces color).flatMap fun sp => gen.generateLegalMovesFrom sp.1 color

/-- `MoveGenerator.isCheckmate` from `moves.ts`. -/
def MoveGenerator.isCheckmate (gen : MoveGenerator) (color : Color) : Bool :=
  if !(isKingInCheck gen.board color) then false
  else decide ((gen.generateLegalMoves color).length = 0)

/-- `MoveGenerator.isStalemate` from `moves.ts`. -/
def MoveGenerator.isStalemate (gen : MoveGenerator) (color : Color) : Bool :=
  if isKingInCheck gen.board color then false
  else decide ((gen.generateLegalMoves color).length = 0)

/-- `MoveGenerator.isPawnPromotionRequired` from `moves.ts`. -/
def MoveGenerator.isPawnPromotionRequired (gen : MoveGenerator) (fromSq toSq : Square)
    (color : Color) : Bool :=
  match gen.board.getPiece fromSq with
  | none => false
  | some piece =>
    if piece.type ≠ .pawn then false
    else
      match squareToCoords toSq with
      | none => false
      | some toCoords => isPawnPromotionRank toCoords.row color

/-- `MoveGenerator.validateMove` from `moves.ts`: the structured validation
result with its six stable error strings. -/
def MoveGenerator.validateMove (gen : MoveGenerator) (move : MoveOptions)
    (color : Color) : MoveValidation :=
  if !(Board.isValidSquare move.fromSq) || !(Board.isValidSquare move.toSq) then
    { valid := false, error := some "Invalid square" }
  else
    match gen.board.getPiece move.fromSq with
    | none => { valid := false, error := some "No piece at starting square" }
    | some piece =>
      if piece.color ≠ color then { valid := false, error := some "Not your piece" }
      else if move.fromSq = move.toSq then
        { valid := false, error := some "Cannot move to the same square" }
      else
        let legalMoves := gen.generateLegalMovesFrom move.fromSq color
        let matchingMove := legalMoves.find? fun m =>
          if m.fromSq ≠ move.fromSq ∨ m.toSq ≠ move.toSq then false
          else
            match move.promotion with
            | some promo => decide (m.promotion = some promo)
            | none => true
        match matchingMove with
        | none => { valid := false, error := some "Illegal move" }
        | some _ =>
          if piece.type = .pawn && gen.isPawnPromotionRequired move.fromSq move.toSq color &&
              move.promotion.isNone then
            { valid := false, error := some "Pawn promotion required" }
          else { valid := true, error := none }

/-! ## Game state machine (`src/engine/game.ts`) -/

/-- `GameStatus` from `src/types/index.ts`.  Note that the `draw` value is a
member of the union type even though `Game.updateGameStatus` never produces
it; `src/ai/minimax.ts` compares against it. -/
inductive GameStatus where
  | active
  | check
  | checkmate
  | stalemate
  | draw
  | insufficient_material
  | threefold_repetition
  | fifty_move_rule
deriving DecidableEq, Repr

/-- The canonical position key of `Game.getPositionKey`.  The source builds
the string `JSON.stringify(board) | turn | JSON.stringify(castling) | ep`,
which is injective in these four components (the grid serialization
determines the grid and conversely), so we model the key by the tuple
itself. -/
abbrev PositionKey := Board × Color × CastlingRights × Option Square

/-- The state fields of the `Game` class.  The `moveGenerator` member is
omitted: the source rebuilds it from `(board, castlingRights,
enPassantSquare)` after every mutation, so it is the derived value
`Game.moveGen` below at every use site that we model. -/
structure Game where
  board : Board
  currentTurn : Color
  moveHistory : List Move
  castlingRights : CastlingRights
  enPassantSquare : Option Square
  halfMoveClock : Nat
  fullMoveNumber : Nat
  gameStatus : GameStatus
  positionHistory : List PositionKey
deriving DecidableEq

/-- The `this.moveGenerator` member, always freshly rebuilt in the source. -/
def Game.moveGen (g : Game) : MoveGenerator :=
  ⟨g.board, g.castlingRights, g.enPassantSquare⟩

/-- `Game.getPositionKey`. -/
def Game.getPositionKey (g : Game) : PositionKey :=
  (g.board, g.currentTurn, g.castlingRights, g.enPassantSquare)

/-- `Game.recordPosition`: the `Map`'s per-key counter increment is modelled
by appending an occurrence to a list of recorded keys. -/
def Game.recordPosition (g : Game) : Game :=
  { g with positionHistory := g.positionHistory ++ [g.getPositionKey] }

/-- Occurrence count of a key in the recorded-position list (the value
`positionHistory.get(key) ?? 0` of the source's `Map`). -/
def countPosition (history : List PositionKey) (key : PositionKey) : Nat :=
  (history.filter fun k => decide (k = key)).length

/-- `Game.isInsufficientMaterial`. -/
def Game.isInsufficientMaterial (g : Game) : Bool :=
  let pieces := g.board.findPieces .white ++ g.board.findPieces .black
  if pieces.length = 2 then true
  else if pieces.length = 3 then
    let nonKings := pieces.filter fun p => decide (p.2.type ≠ .king)
    if nonKings.length = 1 then
      match nonKings.head? with
      | some p => decide (p.2.type = .bishop ∨ p.2.type = .knight)
      | none => false
    else false
  else if pieces.length = 4 then
    let bishops := pieces.filter fun p => decide (p.2.type = .bishop)
    if bishops.length = 2 then
      match bishops with
      | b1 :: b2 :: _ =>
        match squareToCoords b1.1, squareToCoords b2.1 with
        | some c1, some c2 => decide ((c1.row + c1.col) % 2 = (c2.row + c2.col) % 2)
        | _, _ => false
      | _ => false
    else false
  else false

/-- `Game.isInCheck`. -/
def Game.isInCheck (g : Game) : Bool :=
  isKingInCheck g.board g.currentTurn

/-- The status computed by `Game.updateGameStatus`, in its priority order. -/
def Game.computeStatus (g : Game) : GameStatus :=
  if g.moveGen.isCheckmate g.currentTurn then .checkmate
  else if g.moveGen.isStalemate g.currentTurn then .stalemate
  else if 100 ≤ g.halfMoveClock then .fifty_move_rule
  else if 3 ≤ countPosition g.positionHistory g.getPositionKey then .threefold_repetition
  else if g.isInsufficientMaterial then .insufficient_material
  else if g.isInCheck then .check
  else .active

/-- `Game.updateGameStatus`. -/
def Game.updateGameStatus (g : Game) : Game :=
  { g with gameStatus := g.computeStatus }

/-- The `Game` constructor without a FEN option: starting position, white to
move, all rights, initial position recorded. -/
def Game.init : Game :=
  let g : Game :=
    { board := setupStartingPosition, currentTurn := .white, moveHistory := [],
      castlingRights := ⟨true, true, true, true⟩, enPassantSquare := none,
      halfMoveClock := 0, fullMoveNumber := 1, gameStatus := .active,
      positionHistory := [] }
  g.recordPosition

/-- `Game.isEnPassantCapture`. -/
def Game.isEnPassantCapture (g : Game) (fromSq toSq : Square) : Bool :=
  match g.board.getPiece fromSq with
  | some piece =>
    decide (piece.type = .pawn) &&
      match g.enPassantSquare with
      | some eps => decide (toSq = eps)
      | none => false
  | none => false

/-- `Game.isCastlingMove`. -/
def Game.isCastlingMove (g : Game) (fromSq toSq : Square) : Option CastlingSide :=
  match g.board.getPiece fromSq with
  | some piece =>
    if piece.type ≠ .king then none
    else
      let fromFile := fromSq.data.getD 0 ' '
      let toFile := toSq.data.getD 0 ' '
      if fromFile = 'e' ∧ toFile = 'g' then some .kingside
      else if fromFile = 'e' ∧ toFile = 'c' then some .queenside
      else none
  | none => none

/-- `Game.executeCastling`: move the king, then the rook. -/
def Game.executeCastling (g : Game) (move : Move) : Game :=
  let b1 := g.board.movePiece move.fromSq move.toSq
  let rankCh : Char := if move.piece.color = .white then '1' else '8'
  let b2 :=
    if move.castling = some .kingside then
      b1.movePiece (String.mk ['h', rankCh]) (String.mk ['f', rankCh])
    else
      b1.movePiece (String.mk ['a', rankCh]) (String.mk ['d', rankCh])
  { g with board := b2 }

/-- `Game.executeMove`: en-passant pawn removal, castling, promotion, or a
plain `movePiece`. -/
def Game.executeMove (g : Game) (move : Move) : Game :=
  let g :=
    if move.enPassant = some true then
      let capturedPawnRank : Char := if move.piece.color = .white then '5' else '4'
      let fileCh := move.toSq.data.getD 0 ' '
      { g with board := g.board.setPiece (String.mk [fileCh, capturedPawnRank]) none }
    else g
  if move.castling.isSome then g.executeCastling move
  else
    match move.promotion with
    | some promo =>
      { g with board :=
          (g.board.setPiece move.toSq (some ⟨promo, move.piece.color⟩)).setPiece move.fromSq none }
    | none => { g with board := g.board.movePiece move.fromSq move.toSq }

/-- `Game.updateCastlingRights`, as a pure function of the rights. -/
def updateCastlingRightsFromMove (rights : CastlingRights) (move : Move) : CastlingRights :=
  let r1 :=
    if move.piece.type = .king then
      if move.piece.color = .white then
        { rights with whiteKingside := false, whiteQueenside := false }
      else
        { rights with blackKingside := false, blackQueenside := false }
    else rights
  let r2 :=
    if move.piece.type = .rook then
      let a := if move.fromSq = "a1" then { r1 with whiteQueenside := false } else r1
      let b := if move.fromSq = "h1" then { a with whiteKingside := false } else a
      let c := if move.fromSq = "a8" then { b with blackQueenside := false } else b
      if move.fromSq = "h8" then { c with blackKingside := false } else c
    else r1
  match move.captured with
  | some cap =>
    if cap.type = .rook then
      let a := if move.toSq = "a1" then { r2 with whiteQueenside := false } else r2
      let b := if move.toSq = "h1" then { a with whiteKingside := false } else a
      let c := if move.toSq = "a8" then { b with blackQueenside := false } else b
      if move.toSq = "h8" then { c with blackKingside := false } else c
    else r2
  | none => r2

/-- `Game.updateGameState`: half-move clock, en-passant target, castling
rights, turn and full-move number, after a move has been executed. -/
def Game.updateGameState (g : Game) (move : Move) : Game :=
  let halfMoveClock :=
    if move.piece.type = .pawn ∨ move.captured.isSome then 0 else g.halfMoveClock + 1
  let enPassantSquare : Option Square :=
    if move.piece.type = .pawn then
      match charDigit (move.fromSq.data.getD 1 ' '), charDigit (move.toSq.data.getD 1 ' ') with
      | some fromRank, some toRank =>
        if ((toRank : Int) - (fromRank : Int)).natAbs = 2 then
          let targetRank : Int :=
            if move.piece.color = .white then (fromRank : Int) + 1 else (fromRank : Int) - 1
          some (String.mk [move.fromSq.data.getD 0 ' '] ++ toString targetRank)
        else none
      | _, _ => none
    else none
  let castlingRights := updateCastlingRightsFromMove g.castlingRights move
  let currentTurn : Color := if g.currentTurn = .white then .black else .white
  let fullMoveNumber :=
    if currentTurn = .white then g.fullMoveNumber + 1 else g.fullMoveNumber
  { g with
    halfMoveClock := halfMoveClock,
    enPassantSquare := enPassantSquare,
    castlingRights := castlingRights,
    currentTurn := currentTurn,
    fullMoveNumber := fullMoveNumber }

/-- SAN letters of the `pieceMap` in `Game.generateSan` (empty for pawns). -/
def pieceLetter (t : PieceType) : String :=
  match t with
  | .king => "K"
  | .queen => "Q"
  | .rook => "R"
  | .bishop => "B"
  | .knight => "N"
  | .pawn => ""

/-- The promotion suffix letter: the source uppercases the first character of
the TS type name (`move.promotion[0]?.toUpperCase()`), so a knight promotion
renders as `K`. -/
def promotionSanLetter (t : PieceType) : String :=
  match t with
  | .pawn => "P"
  | .knight => "K"
  | .bishop => "B"
  | .rook => "R"
  | .queen => "Q"
  | .king => "K"

/-- `Game.getDisambiguation`. -/
def Game.getDisambiguation (g : Game) (move : Move) : String :=
  if move.piece.type = .pawn ∨ move.piece.type = .king then ""
  else
    let legalMoves := g.moveGen.generateLegalMoves move.piece.color
    let ambiguousMoves := legalMoves.filter fun m =>
      decide (m.toSq = move.toSq ∧ m.piece.type = move.piece.type ∧ m.fromSq ≠ move.fromSq)
    if ambiguousMoves.length = 0 then ""
    else
      let fromFile := move.fromSq.data.getD 0 ' '
      let sameFile := ambiguousMoves.any fun m => m.fromSq.data.getD 0 ' ' = fromFile
      if !sameFile then String.mk [fromFile]
      else
        let fromRank := move.fromSq.data.getD 1 ' '
        let sameRank := ambiguousMoves.any fun m => m.fromSq.data.getD 1 ' ' = fromRank
        if !sameRank then String.mk [fromRank]
        else move.fromSq

/-- `Game.generateSan` (check/checkmate suffixes are appended later in
`Game.move`). -/
def Game.generateSan (g : Game) (move : Move) : String :=
  match move.castling with
  | some .kingside => "O-O"
  | some .queenside => "O-O-O"
  | none =>
    let san := if move.piece.type ≠ .pawn then pieceLetter move.piece.type else ""
    let san := san ++ g.getDisambiguation move
    let san :=
      if move.captured.isSome || move.enPassant = some true then
        (if move.piece.type = .pawn then san ++ String.mk [move.fromSq.data.getD 0 ' '] else san)
          ++ "x"
      else san
    let san := san ++ move.toSq
    match move.promotion with
    | some promo => san ++ "=" ++ promotionSanLetter promo
    | none => san

/-- `Game.move`: validate, build the move record, execute, update state,
record position, recompute status, attach SAN and check flags, push history.
Returns the executed move (or `none`) together with the updated game. -/
def Game.move (g : Game) (moveOptions : MoveOptions) : Option Move × Game :=
  let validation := g.moveGen.validateMove moveOptions g.currentTurn
  if !validation.valid then (none, g)
  else
    match g.board.getPiece moveOptions.fromSq with
    | none => (none, g)
    | some piece =>
      let capturedPiece := g.board.getPiece moveOptions.toSq
      let isEnPassant := g.isEnPassantCapture moveOptions.fromSq moveOptions.toSq
      let isCastling := g.isCastlingMove moveOptions.fromSq moveOptions.toSq
      let move : Move :=
        { fromSq := moveOptions.fromSq, toSq := moveOptions.toSq, piece := piece,
          captured := capturedPiece, promotion := moveOptions.promotion,
          enPassant := some isEnPassant, castling := isCastling }
      let san := g.generateSan move
      let g4 := (((g.executeMove move).updateGameState move).recordPosition).updateGameStatus
      let opponent := g4.currentTurn
      let isCheck := isKingInCheck g4.board opponent
      let isCheckmate := decide (g4.gameStatus = GameStatus.checkmate)
      let sanFinal := if isCheckmate then san ++ "#" else if isCheck then san ++ "+" else san
      let finalMove :=
        { move with
          san := some sanFinal,
          checkmate := if isCheckmate then some true else none,
          check := if !isCheckmate && isCheck then some true else none }
      (some finalMove, { g4 with moveHistory := g4.moveHistory ++ [finalMove] })

/-- `Game.getLegalMoves`. -/
def Game.getLegalMoves (g : Game) : List Move :=
  g.moveGen.generateLegalMoves g.currentTurn

/-- `Game.getLegalMovesFrom`. -/
def Game.getLegalMovesFrom (g : Game) (square : Square) : List Move :=
  g.moveGen.generateLegalMovesFrom square g.currentTurn

/-- `Game.undoCastling`: move the rook back. -/
def Game.undoCastling (g : Game) (move : Move) : Game :=
  let rankCh : Char := if move.piece.color = .white then '1' else '8'
  if move.castling = some .kingside then
    { g with board := g.board.movePiece (String.mk ['f', rankCh]) (String.mk ['h', rankCh]) }
  else
    { g with board := g.board.movePiece (String.mk ['d', rankCh]) (String.mk ['a', rankCh]) }

/-- `Game.restoreInitialGameState`: the constructor's auxiliary state. -/
def Game.restoreInitialGameState (g : Game) : Game :=
  { g with
    castlingRights := ⟨true, true, true, true⟩,
    enPassantSquare := none,
    halfMoveClock := 0,
    fullMoveNumber := 1 }

/-- `Game.restoreGameStateFromMove`: the source comments that this is "a
simplified restoration"; it only re-restricts castling rights from the
previous move. -/
def Game.restoreGameStateFromMove (g : Game) (move : Move) : Game :=
  { g with castlingRights := updateCastlingRightsFromMove g.castlingRights move }

/-- `Game.undo`. -/
def Game.undo (g : Game) : Option Move × Game :=
  match g.moveHistory.getLast? with
  | none => (none, g)
  | some move =>
    let g := { g with moveHistory := g.moveHistory.dropLast }
    let g := { g with board := g.board.setPiece move.fromSq (some move.piece) }
    let g :=
      match move.captured with
      | some captured =>
        if move.enPassant = some true then
          let capturedPawnRank : Char := if move.piece.color = Color.white then '5' else '4'
          let fileCh := move.toSq.data.getD 0 ' '
          let b := g.board.setPiece (String.mk [fileCh, capturedPawnRank]) (some captured)
          { g with board := b.setPiece move.toSq none }
        else { g with board := g.board.setPiece move.toSq (some captured) }
      | none => { g with board := g.board.setPiece move.toSq none }
    let g := if move.castling.isSome then g.undoCastling move else g
    let g :=
      match g.moveHistory.getLast? with
      | some previousMove => g.restoreGameStateFromMove previousMove
      | none => g.restoreInitialGameState
    let g :=
      { g with currentTurn := if g.currentTurn = Color.white then Color.black else Color.white }
    (some move, g.updateGameStatus)

/-- `Game.reset`. -/
def Game.reset (_g : Game) : Game :=
  let g : Game :=
    { board := setupStartingPosition, currentTurn := .white, moveHistory := [],
      castlingRights := ⟨true, true, true, true⟩, enPassantSquare := none,
      halfMoveClock := 0, fullMoveNumber := 1, gameStatus := .active,
      positionHistory := [] }
  g.recordPosition

/-- `Game.isGameOver`. -/
def Game.isGameOver (g : Game) : Bool :=
  decide (g.gameStatus ≠ .active ∧ g.gameStatus ≠ .check)

/-! ## FEN parser and generator (`src/engine/fen.ts`) -/

/-- The data produced by `FenParser.parse`. -/
structure FenData where
  board : Board
  turn : Color
  castlingRights : CastlingRights
  enPassantSquare : Option Square
  halfMoveClock : Nat
  fullMoveNumber : Nat
deriving DecidableEq

/-- `FenParser.charToPiece`. -/
def charToPiece (c : Char) : Option Piece :=
  let isUpper := c.toUpper = c
  let color : Color := if isUpper then .white else .black
  let lowerChar := c.toLower
  let pieceType : Option PieceType :=
    if lowerChar = 'p' then some .pawn
    else if lowerChar = 'n' then some .knight
    else if lowerChar = 'b' then some .bishop
    else if lowerChar = 'r' then some .rook
    else if lowerChar = 'q' then some .queen
    else if lowerChar = 'k' then some .king
    else none
  pieceType.map fun t => ⟨t, color⟩

/-- Split a character list at every occurrence of a separator, keeping empty
segments — the semantics of JS `String.split(sep)`.  (The core `String`
splitting functions do not reduce inside the kernel, so the FEN layer works
on `List Char`.) -/
def splitOnCharAux (sep : Char) : List Char → List Char → List (List Char)
  | [], acc => [acc.reverse]
  | c :: rest, acc =>
    if c = sep then acc.reverse :: splitOnCharAux sep rest []
    else splitOnCharAux sep rest (c :: acc)

/-- JS `s.split(sep)` on the character list. -/
def splitOnChar (cs : List Char) (sep : Char) : List (List Char) :=
  splitOnCharAux sep cs []

/-- Split at every character satisfying a predicate, keeping empty
segments. -/
def splitOnPredAux (p : Char → Bool) : List Char → List Char → List (List Char)
  | [], acc => [acc.reverse]
  | c :: rest, acc =>
    if p c then acc.reverse :: splitOnPredAux p rest []
    else splitOnPredAux p rest (c :: acc)

/-- JS `s.trim()` on the character list. -/
def trimChars (cs : List Char) : List Char :=
  ((cs.dropWhile Char.isWhitespace).reverse.dropWhile Char.isWhitespace).reverse

/-- The inner character loop of `FenParser.parsePiecePlacement` over one rank.
`rankNum` is the displayed rank `8 - rankIndex` used in error messages.
`charDigit` models the `/\d/` test together with `parseInt`. -/
def parseRankChars (row : Int) (rankNum : Int) :
    Board → List Char → Int → Except String Board
  | board, [], fileIndex =>
    if fileIndex ≠ 8 then .error ("Invalid FEN: incomplete rank " ++ toString rankNum)
    else .ok board
  | board, c :: rest, fileIndex =>
    if 8 ≤ fileIndex then
      .error ("Invalid FEN: too many squares in rank " ++ toString rankNum)
    else
      match charDigit c with
      | some emptySquares =>
        if emptySquares < 1 ∨ 8 < emptySquares then
          .error ("Invalid FEN: invalid empty square count " ++ String.mk [c])
        else parseRankChars row rankNum board rest (fileIndex + (emptySquares : Int))
      | none =>
        match charToPiece c with
        | none => .error ("Invalid FEN: unknown piece character " ++ String.mk [c])
        | some piece =>
          parseRankChars row rankNum (board.setPieceAt row fileIndex (some piece)) rest
            (fileIndex + 1)

/-- The outer rank loop of `FenParser.parsePiecePlacement` (rank index 0 is
FEN rank 8, i.e. board row 7). -/
def parseRanksLoop : Board → List (List Char) → Int → Except String Board
  | board, [], _ => .ok board
  | board, rank :: rest, rankIndex =>
    match parseRankChars (7 - rankIndex) (8 - rankIndex) board rank 0 with
    | .error e => .error e
    | .ok b => parseRanksLoop b rest (rankIndex + 1)

/-- `FenParser.parsePiecePlacement`. -/
def parsePiecePlacement (placement : String) : Except String Board :=
  let ranks := splitOnChar placement.data '/'
  if ranks.length ≠ 8 then
    .error ("Invalid FEN: expected 8 ranks, got " ++ toString ranks.length)
  else parseRanksLoop emptyBoard ranks 0

/-- `FenParser.parseActiveColor`. -/
def parseActiveColor (color : String) : Except String Color :=
  if color = "w" then .ok .white
  else if color = "b" then .ok .black
  else .error ("Invalid FEN: invalid active color " ++ color)

/-- The character loop of `FenParser.parseCastlingRights`. -/
def parseCastlingChars : CastlingRights → List Char → Except String CastlingRights
  | rights, [] => .ok rights
  | rights, c :: rest =>
    if c = 'K' then parseCastlingChars { rights with whiteKingside := true } rest
    else if c = 'Q' then parseCastlingChars { rights with whiteQueenside := true } rest
    else if c = 'k' then parseCastlingChars { rights with blackKingside := true } rest
    else if c = 'q' then parseCastlingChars { rights with blackQueenside := true } rest
    else .error ("Invalid FEN: invalid castling character " ++ String.mk [c])

/-- `FenParser.parseCastlingRights`. -/
def parseCastlingRightsFen (castling : String) : Except String CastlingRights :=
  if castling = "-" then .ok ⟨false, false, false, false⟩
  else parseCastlingChars ⟨false, false, false, false⟩ castling.data

/-- `FenParser.parseEnPassant` (the regex `^[a-h][36]$`). -/
def parseEnPassantFen (enPassant : String) : Except String (Option Square) :=
  if enPassant = "-" then .ok none
  else
    match enPassant.data with
    | [f, r] =>
      if ('a' ≤ f ∧ f ≤ 'h') ∧ (r = '3' ∨ r = '6') then .ok (some enPassant)
      else .error ("Invalid FEN: invalid en passant square " ++ enPassant)
    | _ => .error ("Invalid FEN: invalid en passant square " ++ enPassant)

/-- JS `parseInt(s, 10)`: optional leading whitespace and sign, then the
longest ASCII digit prefix; `none` models `NaN`. -/
def parseIntJS (s : String) : Option Int :=
  let l := s.data.dropWhile Char.isWhitespace
  let signAndRest : Int × List Char :=
    match l with
    | '-' :: t => (-1, t)
    | '+' :: t => (1, t)
    | t => (1, t)
  let ds := signAndRest.2.takeWhile Char.isDigit
  if ds.isEmpty then none
  else some (signAndRest.1 * ds.foldl (fun acc c => acc * 10 + ((c.toNat : Int) - 48)) 0)

/-- `FenParser.parseHalfMoveClock`. -/
def parseHalfMoveClock (halfMove : String) : Except String Nat :=
  match parseIntJS halfMove with
  | some clock =>
    if clock < 0 then .error ("Invalid FEN: invalid halfmove clock " ++ halfMove)
    else .ok clock.toNat
  | none => .error ("Invalid FEN: invalid halfmove clock " ++ halfMove)

/-- `FenParser.parseFullMoveNumber`. -/
def parseFullMoveNumber (fullMove : String) : Except String Nat :=
  match parseIntJS fullMove with
  | some n =>
    if n < 1 then .error ("Invalid FEN: invalid fullmove number " ++ fullMove)
    else .ok n.toNat
  | none => .error ("Invalid FEN: invalid fullmove number " ++ fullMove)

/-- `fen.trim().split(/\s+/)`: JS splitting of the empty string yields
`[""]`; otherwise the trimmed string splits on whitespace runs (splitting at
every whitespace character and dropping empty segments is the same thing). -/
def fenFields (fen : String) : List String :=
  let t := trimChars fen.data
  if t = [] then [""]
  else ((splitOnPredAux Char.isWhitespace t []).filter fun p => p ≠ []).map String.mk

/-- `FenParser.parse`. -/
def FenParser.parse (fen : String) : Except String FenData :=
  let parts := fenFields fen
  if parts.length ≠ 6 then
    .error ("Invalid FEN: expected 6 parts, got " ++ toString parts.length)
  else
    match parts with
    | [piecePlacement, activeColor, castling, enPassant, halfMove, fullMove] => do
      let board ← parsePiecePlacement piecePlacement
      let turn ← parseActiveColor activeColor
      let castlingRights ← parseCastlingRightsFen castling
      let enPassantSquare ← parseEnPassantFen enPassant
      let halfMoveClock ← parseHalfMoveClock halfMove
      let fullMoveNumber ← parseFullMoveNumber fullMove
      return ⟨board, turn, castlingRights, enPassantSquare, halfMoveClock, fullMoveNumber⟩
    | _ => .error "Invalid FEN: expected 6 parts" -- unreachable: the length is 6

/-- `FenParser.pieceToChar`. -/
def pieceToChar (p : Piece) : Char :=
  let c : Char :=
    match p.type with
    | .pawn => 'p'
    | .knight => 'n'
    | .bishop => 'b'
    | .rook => 'r'
    | .queen => 'q'
    | .king => 'k'
  if p.color = .white then c.toUpper else c

/-- One rank of `FenParser.generatePiecePlacement` (runs of empty squares
become their count). -/
def generateRankStr (b : Board) (row : Fin 8) : String :=
  let step := (List.finRange 8).foldl
    (fun (acc : String × Nat) c =>
      match b.grid row c with
      | some piece =>
        let flushed := if acc.2 > 0 then acc.1 ++ toString acc.2 else acc.1
        (flushed.push (pieceToChar piece), 0)
      | none => (acc.1, acc.2 + 1))
    ("", 0)
  if step.2 > 0 then step.1 ++ toString step.2 else step.1

/-- `FenParser.generatePiecePlacement` (rank 8 down to rank 1). -/
def generatePiecePlacement (b : Board) : String :=
  String.intercalate "/" (((List.finRange 8).reverse).map (generateRankStr b))

/-- `FenParser.generateCastlingRights`. -/
def generateCastlingRightsFen (rights : CastlingRights) : String :=
  let s := (if rights.whiteKingside then "K" else "") ++
    (if rights.whiteQueenside then "Q" else "") ++
    (if rights.blackKingside then "k" else "") ++
    (if rights.blackQueenside then "q" else "")
  if s = "" then "-" else s

/-- `FenParser.generate`. -/
def FenParser.generate (b : Board) (turn : Color) (rights : CastlingRights)
    (enPassantSquare : Option Square) (halfMoveClock fullMoveNumber : Nat) : String :=
  String.intercalate " "
    [generatePiecePlacement b, if turn = .white then "w" else "b",
      generateCastlingRightsFen rights, enPassantSquare.getD "-",
      toString halfMoveClock, toString fullMoveNumber]

/-- `Game.getFen`. -/
def Game.getFen (g : Game) : String :=
  FenParser.generate g.board g.currentTurn g.castlingRights g.enPassantSquare
    g.halfMoveClock g.fullMoveNumber

/-- `Game.loadFen`: parse first (it throws on malformed input), then replace
every field, clear history and the repetition table, record the new position
and recompute status. -/
def Game.loadFen (g : Game) (fen : String) : Except String Game :=
  match FenParser.parse fen with
  | .error e => .error e
  | .ok data =>
    let g' : Game :=
      { g with
        board := data.board,
        currentTurn := data.turn,
        castlingRights := data.castlingRights,
        enPassantSquare := data.enPassantSquare,
        halfMoveClock := data.halfMoveClock,
        fullMoveNumber := data.fullMoveNumber,
        moveHistory := [],
        gameStatus := .active,
        positionHistory := [] }
    .ok g'.recordPosition.updateGameStatus

/-- The caller-side view of a `loadFen` call whose exception is caught: since
`FenParser.parse` runs before any field assignment, a failed load leaves the
instance exactly as it was. -/
def Game.loadFenOrKeep (g : Game) (fen : String) : Game :=
  match g.loadFen fen with
  | .ok g' => g'
  | .error _ => g

/-! ## Position evaluation (`src/ai/evaluation.ts`) -/

/-- `PIECE_VALUES` (centipawns). -/
def PIECE_VALUES (t : PieceType) : Int :=
  match t with
  | .pawn => 100
  | .knight => 320
  | .bishop => 330
  | .rook => 500
  | .queen => 900
  | .king => 20000

/-- `PAWN_TABLE`. -/
def PAWN_TABLE : List (List Int) :=
  [[0, 0, 0, 0, 0, 0, 0, 0],
   [50, 50, 50, 50, 50, 50, 50, 50],
   [10, 10, 20, 30, 30, 20, 10, 10],
   [5, 5, 10, 25, 25, 10, 5, 5],
   [0, 0, 0, 20, 20, 0, 0, 0],
   [5, -5, -10, 0, 0, -10, -5, 5],
   [5, 10, 10, -20, -20, 10, 10, 5],
   [0, 0, 0, 0, 0, 0, 0, 0]]

/-- `KNIGHT_TABLE`. -/
def KNIGHT_TABLE : List (List Int) :=
  [[-50, -40, -30, -30, -30, -30, -40, -50],
   [-40, -20, 0, 0, 0, 0, -20, -40],
   [-30, 0, 10, 15, 15, 10, 0, -30],
   [-30, 5, 15, 20, 20, 15, 5, -30],
   [-30, 0, 15, 20, 20, 15, 0, -30],
   [-30, 5, 10, 15, 15, 10, 5, -30],
   [-40, -20, 0, 5, 5, 0, -20, -40],
   [-50, -40, -30, -30, -30, -30, -40, -50]]

/-- `BISHOP_TABLE`. -/
def BISHOP_TABLE : List (List Int) :=
  [[-20, -10, -10, -10, -10, -10, -10, -20],
   [-10, 0, 0, 0, 0, 0, 0, -10],
   [-10, 0, 5, 10, 10, 5, 0, -10],
   [-10, 5, 5, 10, 10, 5, 5, -10],
   [-10, 0, 10, 10, 10, 10, 0, -10],
   [-10, 10, 10, 10, 10, 10, 10, -10],
   [-10, 5, 0, 0, 0, 0, 5, -10],
   [-20, -10, -10, -10, -10, -10, -10, -20]]

/-- `ROOK_TABLE`. -/
def ROOK_TABLE : List (List Int) :=
  [[0, 0, 0, 0, 0, 0, 0, 0],
   [5, 10, 10, 10, 10, 10, 10, 5],
   [-5, 0, 0, 0, 0, 0, 0, -5],
   [-5, 0, 0, 0, 0, 0, 0, -5],
   [-5, 0, 0, 0, 0, 0, 0, -5],
   [-5, 0, 0, 0, 0, 0, 0, -5],
   [-5, 0, 0, 0, 0, 0, 0, -5],
   [0, 0, 0, 5, 5, 0, 0, 0]]

/-- `QUEEN_TABLE`. -/
def QUEEN_TABLE : List (List Int) :=
  [[-20, -10, -10, -5, -5, -10, -10, -20],
   [-10, 0, 0, 0, 0, 0, 0, -10],
   [-10, 0, 5, 5, 5, 5, 0, -10],
   [-5, 0, 5, 5, 5, 5, 0, -5],
   [0, 0, 5, 5, 5, 5, 0, -5],
   [-10, 5, 5, 5, 5, 5, 0, -10],
   [-10, 0, 5, 0, 0, 0, 0, -10],
   [-20, -10, -10, -5, -5, -10, -10, -20]]

/-- `KING_MIDDLE_TABLE`. -/
def KING_MIDDLE_TABLE : List (List Int) :=
  [[-30, -40, -40, -50, -50, -40, -40, -30],
   [-30, -40, -40, -50, -50, -40, -40, -30],
   [-30, -40, -40, -50, -50, -40, -40, -30],
   [-30, -40, -40, -50, -50, -40, -40, -30],
   [-20, -30, -30, -40, -40, -30, -30, -20],
   [-10, -20, -20, -20, -20, -20, -20, -10],
   [20, 20, 0, 0, 0, 0, 20, 20],
   [20, 30, 10, 0, 0, 10, 30, 20]]

/-- `KING_END_TABLE`. -/
def KING_END_TABLE : List (List Int) :=
  [[-50, -40, -30, -20, -20, -30, -40, -50],
   [-30, -20, -10, 0, 0, -10, -20, -30],
   [-30, -10, 20, 30, 30, 20, -10, -30],
   [-30, -10, 30, 40, 40, 30, -10, -30],
   [-30, -10, 30, 40, 40, 30, -10, -30],
   [-30, -10, 20, 30, 30, 20, -10, -30],
   [-30, -30, 0, 0, 0, 0, -30, -30],
   [-50, -30, -30, -30, -30, -30, -30, -50]]

/-- `PIECE_TABLES` (king entry is the middlegame table; the endgame king
table is substituted inside `getPieceSquareValue`). -/
def PIECE_TABLES (t : PieceType) : List (List Int) :=
  match t with
  | .pawn => PAWN_TABLE
  | .knight => KNIGHT_TABLE
  | .bishop => BISHOP_TABLE
  | .rook => ROOK_TABLE
  | .queen => QUEEN_TABLE
  | .king => KING_MIDDLE_TABLE

/-- `table[row]?.[col] ?? 0`. -/
def tableValue (table : List (List Int)) (row col : Int) : Int :=
  if 0 ≤ row ∧ 0 ≤ col then (table.getD row.toNat []).getD col.toNat 0 else 0

/-- `evaluateMaterial` from `evaluation.ts`. -/
def evaluateMaterial (b : Board) (color : Color) : Int :=
  let pieces := b.findPieces color
  let opponentPieces := b.findPieces (if color = .white then .black else .white)
  let own := pieces.foldl (fun acc p => acc + PIECE_VALUES p.2.type) 0
  opponentPieces.foldl (fun acc p => acc - PIECE_VALUES p.2.type) own

/-- `getPieceSquareValue` from `evaluation.ts` (the module's private
`squareToCoords` helper has exactly the semantics of the board one). -/
def getPieceSquareValue (piece : Piece) (square : Square) (endgame : Bool) : Int :=
  match squareToCoords square with
  | none => 0
  | some coords =>
    let row := if piece.color = .black then 7 - coords.row else coords.row
    let table :=
      if piece.type = .king ∧ endgame then KING_END_TABLE else PIECE_TABLES piece.type
    let value := tableValue table row coords.col
    if piece.color = .white then value else -value

/-- `evaluatePosition` from `evaluation.ts`. -/
def evaluatePosition (b : Board) (endgame : Bool) : Int :=
  (List.finRange 8).foldl
    (fun acc r =>
      (List.finRange 8).foldl
        (fun acc2 c =>
          match b.getPiece (squareOfFin r c) with
          | some piece => acc2 + getPieceSquareValue piece (squareOfFin r c) endgame
          | none => acc2)
        acc)
    0

/-- `isEndgame` from `evaluation.ts`: true when both sides lack queens, or
when BOTH sides hold a queen and each has at most one extra rook or minor
piece (the counting loops become filters). -/
def isEndgame (b : Board) : Bool :=
  let whitePieces := b.findPieces .white
  let blackPieces := b.findPieces .black
  let whiteQueens := (whitePieces.filter fun p => decide (p.2.type = .queen)).length
  let whiteMinor :=
    (whitePieces.filter fun p => decide (p.2.type = .knight ∨ p.2.type = .bishop)).length
  let whiteRooks := (whitePieces.filter fun p => decide (p.2.type = .rook)).length
  let blackQueens := (blackPieces.filter fun p => decide (p.2.type = .queen)).length
  let blackMinor :=
    (blackPieces.filter fun p => decide (p.2.type = .knight ∨ p.2.type = .bishop)).length
  let blackRooks := (blackPieces.filter fun p => decide (p.2.type = .rook)).length
  if whiteQueens = 0 ∧ blackQueens = 0 then true
  else if 0 < whiteQueens ∧ whiteMinor + whiteRooks ≤ 1 ∧
      0 < blackQueens ∧ blackMinor + blackRooks ≤ 1 then true
  else false

/-- `evaluateBoard` from `evaluation.ts`: `material + position * 0.1`.
The JS value is an IEEE double; we model the arithmetic over `ℚ` (the float
rounding of `n * 0.1` never moves a value across zero, which is all the
claims about this function use). -/
def evaluateBoard (b : Board) (color : Color) : ℚ :=
  let endgame := isEndgame b
  let materialScore := evaluateMaterial b color
  let positionScore := evaluatePosition b endgame
  (materialScore : ℚ) + (positionScore : ℚ) * (1 / 10)

/-! ## Minimax search engine (`src/ai/minimax.ts`) -/

/-- JS numbers extended with the `±Infinity` used for alpha/beta seeds. -/
inductive XScore where
  | negInf
  | fin (q : ℚ)
  | posInf
deriving DecidableEq, Repr

/-- Numeric `≤` on scores. -/
def XScore.ble : XScore → XScore → Bool
  | .negInf, _ => true
  | _, .posInf => true
  | .fin a, .fin b => decide (a ≤ b)
  | .posInf, _ => false
  | .fin _, .negInf => false

/-- `Math.max`. -/
def XScore.max (a b : XScore) : XScore :=
  if XScore.ble a b then b else a

/-- `Math.min`. -/
def XScore.min (a b : XScore) : XScore :=
  if XScore.ble a b then a else b

/-- The three fields of `Required<AIConfig>` that `MinimaxAI` reads.
Wall-clock time is modelled as constant 0 (the single-threaded model runs
instantly), so `Date.now() - startTime > maxThinkingTime` becomes
`0 > maxThinkingTime`. -/
structure AIConfig where
  maxDepth : Nat
  maxThinkingTime : Int
  randomness : ℚ
deriving DecidableEq, Repr

/-- The `SearchStats` record of `minimax.ts`, accumulated per `analyze`
call (`this.stats` is reset at the start of the search). -/
structure SearchStats where
  nodesEvaluated : Nat
  pruneCount : Nat
  maxDepthReached : Nat
deriving DecidableEq, Repr

/-- Accumulation of the imperative `this.stats` updates of two subtrees. -/
def combineStats (a b : SearchStats) : SearchStats :=
  ⟨a.nodesEvaluated + b.nodesEvaluated, a.pruneCount + b.pruneCount,
    max a.maxDepthReached b.maxDepthReached⟩

/-- `MinimaxAI.cloneGame`: round-trip through FEN (`new Game()` then
`loadFen(game.getFen())`).  A FEN produced by `getFen` always re-parses, so
the error arm is unreachable. -/
def cloneGame (g : Game) : Game :=
  match Game.init.loadFen g.getFen with
  | .ok g' => g'
  | .error _ => Game.init

/-- `OpeningMove` as consumed by `MinimaxAI.analyze` (`move` is the SAN
string; `name`/`eco` are the metadata copied into the analysis). -/
structure OpeningMoveR where
  move : String
  name : Option String := none
  eco : Option String := none
deriving DecidableEq

/-- `MoveEvaluation` from `src/ai/engine.ts`. -/
structure MoveEvaluation where
  move : Move
  score : XScore
  depth : Nat
  nodesEvaluated : Nat
deriving DecidableEq

/-- `AIAnalysis` from `src/ai/engine.ts` (the fields `analyze` fills). -/
structure AIAnalysis where
  bestMove : Move
  score : XScore
  thinkingTime : Int
  depth : Nat
  nodesEvaluated : Nat
  openingName : Option String := none
  eco : Option String := none
  topMoves : List MoveEvaluation := []
deriving DecidableEq

/-- The terminal conditions at the top of `MinimaxAI.minimax`: checkmate
scoring, the `stalemate`/`draw` zero, and the depth/time leaf. -/
def minimaxTerminal (cfg : AIConfig) (depth : Nat) (game : Game)
    (maximizingPlayer : Bool) : Option XScore :=
  let status := game.gameStatus
  if status = .checkmate then
    some (if maximizingPlayer then .fin (-10000 + ((cfg.maxDepth : Int) - (depth : Int)))
      else .fin (10000 - ((cfg.maxDepth : Int) - (depth : Int))))
  else if status = .stalemate ∨ status = .draw then some (.fin 0)
  else if depth = 0 ∨ (0 : Int) > cfg.maxThinkingTime then
    some (.fin (evaluateBoard game.board .white))
  else none

/-- The maximizing child loop of `minimax`, with beta cutoff and the
(time-modelled) break. -/
def searchChildrenMax (cfg : AIConfig)
    (recurse : Game → XScore → XScore → XScore × SearchStats) :
    List Move → Game → XScore → XScore → XScore → SearchStats → XScore × SearchStats
  | [], _, maxEval, _, _, stats => (maxEval, stats)
  | move :: rest, game, maxEval, alpha, beta, stats =>
    let gameCopy := ((cloneGame game).move ⟨move.fromSq, move.toSq, move.promotion⟩).2
    let result := recurse gameCopy alpha beta
    let stats1 := combineStats stats result.2
    let maxEval1 := XScore.max maxEval result.1
    let alpha1 := XScore.max alpha result.1
    if XScore.ble beta alpha1 then
      (maxEval1, { stats1 with pruneCount := stats1.pruneCount + 1 })
    else if (0 : Int) > cfg.maxThinkingTime then (maxEval1, stats1)
    else searchChildrenMax cfg recurse rest game maxEval1 alpha1 beta stats1

/-- The minimizing child loop of `minimax`, with alpha cutoff. -/
def searchChildrenMin (cfg : AIConfig)
    (recurse : Game → XScore → XScore → XScore × SearchStats) :
    List Move → Game → XScore → XScore → XScore → SearchStats → XScore × SearchStats
  | [], _, minEval, _, _, stats => (minEval, stats)
  | move :: rest, game, minEval, alpha, beta, stats =>
    let gameCopy := ((cloneGame game).move ⟨move.fromSq, move.toSq, move.promotion⟩).2
    let result := recurse gameCopy alpha beta
    let stats1 := combineStats stats result.2
    let minEval1 := XScore.min minEval result.1
    let beta1 := XScore.min beta result.1
    if XScore.ble beta1 alpha then
      (minEval1, { stats1 with pruneCount := stats1.pruneCount + 1 })
    else if (0 : Int) > cfg.maxThinkingTime then (minEval1, stats1)
    else searchChildrenMin cfg recurse rest game minEval1 alpha beta1 stats1

/-- `MinimaxAI.minimax`.  The returned `SearchStats` is this subtree's
contribution to `this.stats` (entry increments `nodesEvaluated` and raises
`maxDepthReached`).  In the source the recursive call uses `depth - 1` on a
JS number; `analyze` only ever starts it at `maxDepth - 1`, so depth never
goes below 0 and `Nat` recursion is faithful. -/
def minimax (cfg : AIConfig) : Nat → Game → XScore → XScore → Bool → XScore × SearchStats
  | 0, game, _, _, maximizingPlayer =>
    ((minimaxTerminal cfg 0 game maximizingPlayer).getD (.fin 0), ⟨1, 0, cfg.maxDepth⟩)
  | d + 1, game, alpha, beta, maximizingPlayer =>
    let entryStats : SearchStats := ⟨1, 0, cfg.maxDepth - (d + 1)⟩
    match minimaxTerminal cfg (d + 1) game maximizingPlayer with
    | some v => (v, entryStats)
    | none =>
      let legalMoves := game.getLegalMoves
      if legalMoves.length = 0 then (.fin 0, entryStats)
      else if maximizingPlayer then
        searchChildrenMax cfg (fun g2 a b => minimax cfg d g2 a b false) legalMoves game
          .negInf alpha beta entryStats
      else
        searchChildrenMin cfg (fun g2 a b => minimax cfg d g2 a b true) legalMoves game
          .posInf alpha beta entryStats

/-- The root evaluation loop of `MinimaxAI.analyze`: search each legal move
at `maxDepth - 1`, recording the running `nodesEvaluated`, stopping after an
iteration when the time budget is exceeded. -/
def analyzeEvalLoop (cfg : AIConfig) (g : Game) (maximizingPlayer : Bool) :
    List Move → SearchStats → List MoveEvaluation → List MoveEvaluation × SearchStats
  | [], stats, acc => (acc, stats)
  | move :: rest, stats, acc =>
    let gameCopy := ((cloneGame g).move ⟨move.fromSq, move.toSq, move.promotion⟩).2
    let result := minimax cfg (cfg.maxDepth - 1) gameCopy .negInf .posInf (!maximizingPlayer)
    let stats1 := combineStats stats result.2
    let acc1 := acc ++ [⟨move, result.1, cfg.maxDepth, stats1.nodesEvaluated⟩]
    if (0 : Int) > cfg.maxThinkingTime then (acc1, stats1)
    else analyzeEvalLoop cfg g maximizingPlayer rest stats1 acc1

/-- `MinimaxAI.analyze`.  `book` is the optional attached opening book as the
function `getMove` it exposes; `randTrigger` models the oracle draw
`Math.random() < randomness` and `randPick` the oracle draw
`Math.floor(Math.random() * topCount)` (reduced mod `topCount`).
The result also carries the final `this.stats` of the call, whose
`nodesEvaluated` counts `minimax` entries (0 on the short-circuit paths).
Errors model thrown exceptions. -/
def MinimaxAI.analyze (cfg : AIConfig) (book : Option (Game → Option OpeningMoveR))
    (randTrigger : Bool) (randPick : Nat) (g : Game) :
    Except String (AIAnalysis × SearchStats) :=
  let bookResult : Option AIAnalysis :=
    match book with
    | some bookFn =>
      match bookFn g with
      | some bookMove =>
        match g.getLegalMoves.find? (fun m => m.san = some bookMove.move) with
        | some matchingMove =>
          some { bestMove := matchingMove, score := .fin 0, thinkingTime := 0, depth := 0,
                 nodesEvaluated := 1, openingName := bookMove.name, eco := bookMove.eco }
        | none => none
      | none => none
    | none => none
  match bookResult with
  | some a => .ok (a, ⟨0, 0, 0⟩)
  | none =>
    match g.getLegalMoves with
    | [] => .error "No legal moves available"
    | [onlyMove] =>
      .ok ({ bestMove := onlyMove, score := .fin 0, thinkingTime := 0, depth := 0,
             nodesEvaluated := 1 }, ⟨0, 0, 0⟩)
    | legalMoves =>
      let maximizingPlayer := decide (g.currentTurn = Color.white)
      let step := analyzeEvalLoop cfg g maximizingPlayer legalMoves ⟨0, 0, 0⟩ []
      let sorted := step.1.mergeSort fun a b =>
        if maximizingPlayer then XScore.ble b.score a.score else XScore.ble a.score b.score
      match sorted.head? with
      | none => .error "No legal moves available" -- unreachable: the loop yields ≥ 1 entry
      | some best0 =>
        let chosen :=
          if 0 < cfg.randomness ∧ randTrigger then
            let topCount := Min.min 3 sorted.length
            ((sorted.get? (randPick % topCount)).getD best0).move
          else best0.move
        .ok ({ bestMove := chosen, score := best0.score, thinkingTime := 0,
               depth := step.2.maxDepthReached, nodesEvaluated := step.2.nodesEvaluated,
               topMoves := sorted.take 5 }, step.2)

/-- `MinimaxAI.getBestMove`: `analyze` and project the best move. -/
def MinimaxAI.getBestMove (cfg : AIConfig) (book : Option (Game → Option OpeningMoveR))
    (randTrigger : Bool) (randPick : Nat) (g : Game) : Except String Move :=
  (MinimaxAI.analyze cfg book randTrigger randPick g).map fun r => r.1.bestMove

/-! ## Concrete games used by the claim theorems -/

/-- Apply a list of move requests in order, keeping whatever state results. -/
def playMoves (g : Game) (l : List MoveOptions) : Game :=
  l.foldl (fun gg o => (gg.move o).2) g

/-- Apply a list of move requests, failing if any of them is rejected. -/
def playMovesAll : Game → List MoveOptions → Option Game
  | g, [] => some g
  | g, o :: rest =>
    match g.move o with
    | (some _, g') => playMovesAll g' rest
    | (none, _) => none

/-- A position with an en-passant pin: white king h5, white pawn g5, black
rook a5, black pawn f5 (which has just advanced two squares, en-passant
target f6), black king a8, white to move. -/
def enPassantPinGame : Game :=
  Game.init.loadFenOrKeep "k7/8/8/r4pPK/8/8/8/8 w - f6 0 1"

/-- The en-passant capture `g5xf6` exactly as `generateLegalMovesFrom`
produces it in `enPassantPinGame`. -/
def enPassantPinMove : Move :=
  { fromSq := "g5", toSq := "f6", piece := ⟨.pawn, .white⟩,
    captured := some ⟨.pawn, .black⟩, enPassant := some true }

/-- Moves leading to an en-passant capture: 1. e4 a6 2. e5 d5 3. exd6 e.p. -/
def c2Line : List MoveOptions :=
  [⟨"e2", "e4", none⟩, ⟨"a7", "a6", none⟩, ⟨"e4", "e5", none⟩, ⟨"d7", "d5", none⟩]

/-- The game after 1. e4 a6 2. e5 d5 (black pawn on d5, en-passant target d6). -/
def c2Before : Game := playMoves Game.init c2Line

/-- The game after the further en-passant capture 3. exd6. -/
def c2After : Game := (c2Before.move ⟨"e5", "d6", none⟩).2

/-- Two bare kings, a position whose status is `insufficient_material`. -/
def twoKingsGame : Game :=
  Game.init.loadFenOrKeep "k7/8/8/8/8/8/8/K7 w - - 0 1"

/-- The knight-shuffle cycle and its games: Ng1-f3, Ng8-f6, Nf3-g1, Nf6-g8,
repeated twice from the start position. -/
def kd1 : Game := (Game.init.move ⟨"g1", "f3", none⟩).2

def kd2 : Game := (kd1.move ⟨"g8", "f6", none⟩).2

def kd3 : Game := (kd2.move ⟨"f3", "g1", none⟩).2

def kd4 : Game := (kd3.move ⟨"f6", "g8", none⟩).2

def kd5 : Game := (kd4.move ⟨"g1", "f3", none⟩).2

def kd6 : Game := (kd5.move ⟨"g8", "f6", none⟩).2

def kd7 : Game := (kd6.move ⟨"f3", "g1", none⟩).2

def kd8 : Game := (kd7.move ⟨"f6", "g8", none⟩).2

/-- King against king and queen (e1/d1 vs e8): a position the evaluator's
doc-comment rule calls an endgame but `isEndgame` does not. -/
def c7Board : Board :=
  ((emptyBoard.setPiece "e1" (some ⟨.king, .white⟩)).setPiece "d1"
      (some ⟨.queen, .white⟩)).setPiece "e8" (some ⟨.king, .black⟩)

/-- The phase condition exactly as claim C7 (and the doc comment on
`isEndgame`) states it: no queens remain on either side, or every side that
holds a queen has at most one other rook or minor piece besides the queen.
Spec-side definition, to be compared with `isEndgame`. -/
def endgameClaimCondition (b : Board) : Bool :=
  let whitePieces := b.findPieces .white
  let blackPieces := b.findPieces .black
  let whiteQueens := (whitePieces.filter fun p => decide (p.2.type = .queen)).length
  let whiteMinor :=
    (whitePieces.filter fun p => decide (p.2.type = .knight ∨ p.2.type = .bishop)).length
  let whiteRooks := (whitePieces.filter fun p => decide (p.2.type = .rook)).length
  let blackQueens := (blackPieces.filter fun p => decide (p.2.type = .queen)).length
  let blackMinor :=
    (blackPieces.filter fun p => decide (p.2.type = .knight ∨ p.2.type = .bishop)).length
  let blackRooks := (blackPieces.filter fun p => decide (p.2.type = .rook)).length
  decide ((whiteQueens = 0 ∧ blackQueens = 0) ∨
    ((0 < whiteQueens → whiteMinor + whiteRooks ≤ 1) ∧
      (0 < blackQueens → blackMinor + blackRooks ≤ 1)))

/-- A lone white king versus a lone black king with the white king on e1:
`insufficient_material`, and the evaluator does not score it zero. -/
def c6Game : Game :=
  Game.init.loadFenOrKeep "k7/8/8/8/8/8/8/4K3 w - - 0 1"

/-- The spec's stalemate example: white Ka1, black Kb3 and Qc2, white to
move — zero legal moves. -/
def stalemateGame : Game :=
  Game.init.loadFenOrKeep "8/8/8/8/8/1k6/2q5/K7 w - - 0 1"

/-- A position with exactly one legal move: white Kh1 and Rg2, black Kf2 and
Rh8 give check down the h-file; only Rg2-h2 interposes. -/
def onlyMoveGame : Game :=
  Game.init.loadFenOrKeep "7r/8/8/8/8/8/5kR1/7K w - - 0 1"

/-- The single legal move of `onlyMoveGame`, as the generator produces it. -/
def onlyMove : Move :=
  { fromSq := "g2", toSq := "h2", piece := ⟨.rook, .white⟩ }

/-- Fool's mate: 1. f3 e5 2. g4 Qh4#. -/
def foolsMateGame : Game :=
  playMoves Game.init
    [⟨"f2", "f3", none⟩, ⟨"e7", "e5", none⟩, ⟨"g2", "g4", none⟩, ⟨"d8", "h4", none⟩]

/-- How many board squares a FEN placement character stands for: a digit
1–8 covers that many empty squares, a recognized piece character covers one
square, anything else (unknown piece characters, and the digits 0 and 9) is
invalid. -/
def fenCharWidth (c : Char) : Option Nat :=
  match charDigit c with
  | some d => if 1 ≤ d ∧ d ≤ 8 then some d else none
  | none =>
    match charToPiece c with
    | some _ => some 1
    | none => none

/-- Total width of a FEN rank, `none` if it holds an invalid character. -/
def rankWidth : List Char → Option Nat
  | [] => some 0
  | c :: rest =>
    match fenCharWidth c, rankWidth rest with
    | some w, some ws => some (w + ws)
    | _, _ => none

/-- Claim C10's structural-malformation classes, stated from the claim's
words: wrong number of space-separated fields, wrong number of ranks, a rank
that is too long or incomplete (its width differs from 8), or an unknown
piece character (rank width undefined). -/
def structurallyMalformedFen (fen : String) : Bool :=
  let parts := fenFields fen
  if parts.length ≠ 6 then true
  else
    match parts with
    | placement :: _ =>
      let ranks := splitOnChar placement.data '/'
      decide (ranks.length ≠ 8) || ranks.any fun r => !(rankWidth r == some 8)
    | [] => true

/-- Game states reachable through the public API: the constructor, `move`,
`undo`, `loadFen` (with its exception caught), and `reset`. -/
inductive Reachable : Game → Prop where
  | init : Reachable Game.init
  | move (g : Game) (opts : MoveOptions) : Reachable g → Reachable (g.move opts).2
  | undo (g : Game) : Reachable g → Reachable (g.undo).2
  | load (g : Game) (fen : String) : Reachable g → Reachable (g.loadFenOrKeep fen)
  | reset (g : Game) : Reachable g → Reachable g.reset

/-! ## Claim theorems: concrete refutations -/

/-- Claim C1: the generated legal-move set is claimed never to leave the
mover's own king attacked, with a single full-effect clone filter covering
ordinary moves, en passant and castling.  Evaluating the code at the
en-passant-pin position refutes this: the en-passant capture g5xf6 is in the
generated legal set (the clone test only runs `movePiece`, so the captured
f5 pawn still shields the king during the test), yet after `Game.move`
executes it — removing the f5 pawn — the white king on h5 is attacked by the
a5 rook. -/
theorem c1_en_passant_pin_breaks_check_safety :
    enPassantPinGame.gameStatus = GameStatus.active ∧
    enPassantPinMove ∈ enPassantPinGame.getLegalMoves ∧
    ((enPassantPinGame.move ⟨"g5", "f6", none⟩).1).isSome = true ∧
    isKingInCheck (enPassantPinGame.move ⟨"g5", "f6", none⟩).2.board .white = true := by
  decide

/-- Claim C2: undo is claimed to be a strict inverse of move application.
Evaluating the code after 1. e4 a6 2. e5 d5 3. exd6 e.p. followed by one
undo refutes this: the board before the capture had a black pawn on d5 and
en-passant target d6, but after undoing the capture the d5 square is empty
(the en-passant victim is never restored, because `Game.move` records no
`captured` piece for en passant) and the en-passant target is `none`
(`restoreGameStateFromMove` only re-restricts castling rights). -/
theorem c2_undo_is_not_a_strict_inverse :
    (playMovesAll Game.init (c2Line ++ [⟨"e5", "d6", none⟩])).isSome = true ∧
    c2Before.board.getPiece "d5" = some ⟨.pawn, .black⟩ ∧
    c2Before.enPassantSquare = some "d6" ∧
    (c2After.undo).2.board.getPiece "d5" = none ∧
    (c2After.undo).2.enPassantSquare = none ∧
    (c2After.undo).2.currentTurn = c2Before.currentTurn := by
  decide

/-- Claim C3 counterexample: a game whose status is the terminal
`insufficient_material` still accepts a legal move — `Game.move` never
consults the game status, so only the two no-legal-move statuses actually
block moves. -/
theorem c3_insufficient_material_does_not_block_moves :
    twoKingsGame.gameStatus = GameStatus.insufficient_material ∧
    twoKingsGame.isGameOver = true ∧
    ((twoKingsGame.move ⟨"a1", "a2", none⟩).1).isSome = true ∧
    (twoKingsGame.move ⟨"a1", "a2", none⟩).2 ≠ twoKingsGame := by
  decide

/-- Claim C5: starting from the initial position and repeating
Ng1-f3 / Ng8-f6 / Nf3-g1 / Nf6-g8, the status is `active` after each of the
first seven plies (in particular never `threefold_repetition` early), and
becomes `threefold_repetition` exactly after the eighth ply, which is
exactly when the starting position's canonical key reaches its third
occurrence in the repetition table. -/
theorem c5_threefold_exactly_on_third_occurrence :
    (Game.init.gameStatus = GameStatus.active ∧
      kd1.gameStatus = GameStatus.active ∧
      kd2.gameStatus = GameStatus.active ∧
      kd3.gameStatus = GameStatus.active ∧
      kd4.gameStatus = GameStatus.active ∧
      kd5.gameStatus = GameStatus.active ∧
      kd6.gameStatus = GameStatus.active ∧
      kd7.gameStatus = GameStatus.active) ∧
    kd8.gameStatus = GameStatus.threefold_repetition ∧
    (countPosition Game.init.positionHistory Game.init.getPositionKey = 1 ∧
      countPosition kd4.positionHistory Game.init.getPositionKey = 2 ∧
      countPosition kd7.positionHistory Game.init.getPositionKey = 2 ∧
      countPosition kd8.positionHistory Game.init.getPositionKey = 3) := by
  decide

/-- Claim C6: every draw-variant node is claimed to score exactly zero in
the search.  Evaluating the code refutes this: at a bare-kings node whose
status is `insufficient_material`, `minimax` at depth 0 falls through the
`stalemate`/`draw` test (the `Game` never produces the literal `draw`
status) and returns the heuristic leaf evaluation 3, not 0; this holds for
every configuration, alpha/beta window and maximizing flag. -/
theorem c6_insufficient_material_node_not_scored_zero :
    c6Game.gameStatus = GameStatus.insufficient_material ∧
    ∀ (cfg : AIConfig) (alpha beta : XScore) (maximizingPlayer : Bool),
      (minimax cfg 0 c6Game alpha beta maximizingPlayer).1 = XScore.fin 3 ∧
      (minimax cfg 0 c6Game alpha beta maximizingPlayer).1 ≠ XScore.fin 0 := by
  refine ⟨by decide, fun cfg alpha beta maximizingPlayer => ?_⟩
  have hs : c6Game.gameStatus = GameStatus.insufficient_material := by decide
  have hm : evaluateMaterial c6Game.board .white = 0 := by decide
  have hp : evaluatePosition c6Game.board (isEndgame c6Game.board) = 30 := by decide
  have he : evaluateBoard c6Game.board .white = 3 := by
    simp only [evaluateBoard, hm, hp]
    norm_num
  constructor
  · simp [minimax, minimaxTerminal, hs, he]
  · simp [minimax, minimaxTerminal, hs, he]

/-- Claim C7: the phase detector is claimed (like its own doc comment) to
report endgame whenever no queens remain or every queen-holding side has at
most one extra rook/minor.  Evaluating the code on king+queen versus bare
king refutes this: the claimed condition holds, but `isEndgame` returns
false because its second clause requires BOTH sides to hold a queen — so the
king keeps the middlegame table (value −50 on e1) instead of the endgame
centralization table (value −20 on e1). -/
theorem c7_phase_detection_requires_both_queens :
    endgameClaimCondition c7Board = true ∧
    isEndgame c7Board = false ∧
    getPieceSquareValue ⟨.king, .white⟩ "e1" (isEndgame c7Board) = -50 ∧
    getPieceSquareValue ⟨.king, .white⟩ "e1" true = -20 := by
  decide

/-! ## Claim theorems: the search engine's short-circuit paths -/

/-- Claim C8: with zero legal moves for the side to move, `analyze` (and
hence `getBestMove`) fails with the "No legal moves available" error and
never returns a move — for every configuration, attached opening book, and
random draw. -/
theorem c8_zero_legal_moves_analyze_errors (cfg : AIConfig)
    (book : Option (Game → Option OpeningMoveR)) (randTrigger : Bool) (randPick : Nat)
    (g : Game) (h : g.getLegalMoves = []) :
    MinimaxAI.analyze cfg book randTrigger randPick g = .error "No legal moves available" ∧
    MinimaxAI.getBestMove cfg book randTrigger randPick g =
      .error "No legal moves available" := by
  have ha : MinimaxAI.analyze cfg book randTrigger randPick g =
      .error "No legal moves available" := by
    unfold MinimaxAI.analyze
    cases book with
    | none => simp [h]
    | some bookFn =>
      cases hb : bookFn g with
      | none => simp [h, hb]
      | some bm => simp [h, hb]
  exact ⟨ha, by unfold MinimaxAI.getBestMove; rw [ha]; rfl⟩

/-- Witness for C8 at the spec's stalemate position. -/
theorem c8_zero_legal_moves_analyze_errors_witness :
    stalemateGame.getLegalMoves = [] ∧
    MinimaxAI.analyze ⟨3, 5000, 0⟩ none false 0 stalemateGame =
      .error "No legal moves available" :=
  ⟨by decide,
    (c8_zero_legal_moves_analyze_errors ⟨3, 5000, 0⟩ none false 0 stalemateGame (by decide)).1⟩

/-- Claim C9: with exactly one legal move, `analyze` returns that move
immediately — depth 0, score 0, zero `minimax` entries in the final search
stats (the reported `nodesEvaluated` field is the hard-coded 1) — for every
configured maximum depth, book, and random draw.  (If an attached book
suggests the move, the book fast path returns the same move, likewise
without entering `minimax`.) -/
theorem c9_single_legal_move_short_circuits (cfg : AIConfig)
    (book : Option (Game → Option OpeningMoveR)) (randTrigger : Bool) (randPick : Nat)
    (g : Game) (m : Move) (h : g.getLegalMoves = [m]) :
    ∃ a : AIAnalysis,
      MinimaxAI.analyze cfg book randTrigger randPick g = .ok (a, ⟨0, 0, 0⟩) ∧
      a.bestMove = m ∧ a.depth = 0 ∧ a.score = .fin 0 ∧ a.nodesEvaluated = 1 := by
  unfold MinimaxAI.analyze
  cases book with
  | none =>
    rw [h]
    exact ⟨_, rfl, rfl, rfl, rfl, rfl⟩
  | some bookFn =>
    cases hb : bookFn g with
    | none =>
      simp only [hb, h]
      exact ⟨_, rfl, rfl, rfl, rfl, rfl⟩
    | some bm =>
      simp only [hb, h, List.find?]
      by_cases hp : m.san = some bm.move
      · simp [hp]
      · simp only [decide_eq_false hp]
        exact ⟨_, rfl, rfl, rfl, rfl, rfl⟩

/-- Witness for C9 at the one-legal-move position. -/
theorem c9_single_legal_move_short_circuits_witness :
    onlyMoveGame.getLegalMoves = [onlyMove] ∧
    (∃ a : AIAnalysis,
      MinimaxAI.analyze ⟨6, 5000, 0⟩ none false 0 onlyMoveGame = .ok (a, ⟨0, 0, 0⟩) ∧
      a.bestMove = onlyMove ∧ a.depth = 0 ∧ a.score = .fin 0 ∧ a.nodesEvaluated = 1) :=
  ⟨by decide,
    c9_single_legal_move_short_circuits ⟨6, 5000, 0⟩ none false 0 onlyMoveGame onlyMove
      (by decide)⟩

/-! ## Claim theorems: structural FEN malformation (C10) -/

/-- The rank-character loop fails whenever the consumed width cannot reach
exactly 8 (in particular on any invalid character). -/
theorem parseRankChars_error (row rankNum : Int) :
    ∀ (cs : List Char) (b : Board) (fi : Int),
      (∀ w, rankWidth cs = some w → fi + (w : Int) ≠ 8) →
      ∃ e, parseRankChars row rankNum b cs fi = .error e := by
  intro cs
  induction cs with
  | nil =>
    intro b fi hw
    have hfi : fi ≠ 8 := by
      have := hw 0 rfl
      omega
    exact ⟨"Invalid FEN: incomplete rank " ++ toString rankNum,
      by simp only [parseRankChars, if_pos hfi]⟩
  | cons c rest ih =>
    intro b fi hw
    by_cases hfi : (8 : Int) ≤ fi
    · exact ⟨"Invalid FEN: too many squares in rank " ++ toString rankNum,
        by simp only [parseRankChars, if_pos hfi]⟩
    · cases hd : charDigit c with
      | some d =>
        by_cases hdr : d < 1 ∨ 8 < d
        · exact ⟨"Invalid FEN: invalid empty square count " ++ String.mk [c],
            by simp only [parseRankChars, if_neg hfi, hd, if_pos hdr]⟩
        · have hcw : fenCharWidth c = some d := by
            simp only [fenCharWidth, hd]
            have hr : 1 ≤ d ∧ d ≤ 8 := by omega
            simp [hr]
          have hrest : ∀ w, rankWidth rest = some w → (fi + (d : Int)) + (w : Int) ≠ 8 := by
            intro w hwr
            have := hw (d + w) (by simp [rankWidth, hcw, hwr])
            push_cast at this ⊢
            omega
          obtain ⟨e, he⟩ := ih b (fi + (d : Int)) hrest
          exact ⟨e, by simp only [parseRankChars, if_neg hfi, hd, if_neg hdr]; exact he⟩
      | none =>
        cases hp : charToPiece c with
        | none =>
          exact ⟨"Invalid FEN: unknown piece character " ++ String.mk [c],
            by simp only [parseRankChars, if_neg hfi, hd, hp]⟩
        | some piece =>
          have hcw : fenCharWidth c = some 1 := by simp [fenCharWidth, hd, hp]
          have hrest : ∀ w, rankWidth rest = some w → (fi + 1) + (w : Int) ≠ 8 := by
            intro w hwr
            have := hw (1 + w) (by simp [rankWidth, hcw, hwr])
            push_cast at this ⊢
            omega
          obtain ⟨e, he⟩ := ih (b.setPieceAt row fi (some piece)) (fi + 1) hrest
          exact ⟨e, by simp only [parseRankChars, if_neg hfi, hd, hp]; exact he⟩

/-- The rank loop fails whenever some rank is structurally invalid. -/
theorem parseRanksLoop_error :
    ∀ (ranks : List (List Char)) (b : Board) (ri : Int),
      (∃ r ∈ ranks, rankWidth r ≠ some 8) →
      ∃ e, parseRanksLoop b ranks ri = .error e := by
  intro ranks
  induction ranks with
  | nil =>
    intro b ri h
    simp at h
  | cons r rest ih =>
    intro b ri h
    rcases h with ⟨r', hr', hbad⟩
    rcases List.mem_cons.1 hr' with heq | hmem
    · subst heq
      have hw : ∀ w, rankWidth r' = some w → (0 : Int) + (w : Int) ≠ 8 := by
        intro w hww habs
        have hw8 : w = 8 := by omega
        exact hbad (by rw [hww, hw8])
      obtain ⟨e, he⟩ := parseRankChars_error (7 - ri) (8 - ri) r' b 0 hw
      exact ⟨e, by simp only [parseRanksLoop, he]⟩
    · cases hres : parseRankChars (7 - ri) (8 - ri) b r 0 with
      | error e => exact ⟨e, by simp only [parseRanksLoop, hres]⟩
      | ok b' =>
        obtain ⟨e, he⟩ := ih b' (ri + 1) ⟨r', hmem, hbad⟩
        exact ⟨e, by simp only [parseRanksLoop, hres]; exact he⟩

/-- `parsePiecePlacement` fails on a wrong rank count or any invalid rank. -/
theorem parsePiecePlacement_error (placement : String)
    (h : (splitOnChar placement.data '/').length ≠ 8 ∨
      ∃ r ∈ splitOnChar placement.data '/', rankWidth r ≠ some 8) :
    ∃ e, parsePiecePlacement placement = .error e := by
  by_cases h8 : (splitOnChar placement.data '/').length ≠ 8
  · exact ⟨"Invalid FEN: expected 8 ranks, got " ++
        toString (splitOnChar placement.data '/').length,
      by simp only [parsePiecePlacement, if_pos h8]⟩
  · rcases h with h' | hbad
    · exact absurd h' h8
    · obtain ⟨e, he⟩ := parseRanksLoop_error _ emptyBoard 0 hbad
      exact ⟨e, by simp only [parsePiecePlacement, if_neg h8]; exact he⟩

/-- Claim C10: loading a structurally malformed FEN string (wrong number of
fields, wrong number of ranks, a rank that is too long or incomplete, or an
unknown piece character) makes `FenParser.parse` throw, and since `loadFen`
parses before assigning any field, the instance's entire prior state is left
exactly as it was. -/
theorem c10_malformed_fen_errors_and_preserves_state (g : Game) (fen : String)
    (h : structurallyMalformedFen fen = true) :
    (∃ e, FenParser.parse fen = .error e) ∧ Game.loadFenOrKeep g fen = g := by
  have hp : ∃ e, FenParser.parse fen = .error e := by
    unfold structurallyMalformedFen at h
    by_cases h6 : (fenFields fen).length ≠ 6
    · exact ⟨"Invalid FEN: expected 6 parts, got " ++ toString (fenFields fen).length,
        by simp only [FenParser.parse, if_pos h6]⟩
    · rw [if_neg h6] at h
      push_neg at h6
      rcases hf : fenFields fen with _ | ⟨p1, _ | ⟨p2, _ | ⟨p3, _ | ⟨p4, _ | ⟨p5, _ |
        ⟨p6, rest7⟩⟩⟩⟩⟩⟩ <;> rw [hf] at h6 <;> simp at h6
      subst h6
      rw [hf] at h
      have hplace : (splitOnChar p1.data '/').length ≠ 8 ∨
          ∃ r ∈ splitOnChar p1.data '/', rankWidth r ≠ some 8 := by
        simp only [Bool.or_eq_true, decide_eq_true_eq, List.any_eq_true,
          Bool.not_eq_true', beq_eq_false_iff_ne, ne_eq] at h
        exact h.imp id (fun ⟨r, hr, hb⟩ => ⟨r, hr, hb⟩)
      obtain ⟨e, he⟩ := parsePiecePlacement_error p1 hplace
      refine ⟨e, ?_⟩
      simp only [FenParser.parse, hf]
      rw [if_neg (by simp)]
      simp only [he]
      rfl
  obtain ⟨e, he⟩ := hp
  refine ⟨⟨e, he⟩, ?_⟩
  unfold Game.loadFenOrKeep Game.loadFen
  rw [he]

/-- Witness for C10: a FEN with only four ranks is rejected and the game is
untouched. -/
theorem c10_malformed_fen_errors_and_preserves_state_witness :
    structurallyMalformedFen "8/8/8/8 w - - 0 1" = true ∧
    (∃ e, FenParser.parse "8/8/8/8 w - - 0 1" = .error e) ∧
    Game.init.loadFenOrKeep "8/8/8/8 w - - 0 1" = Game.init :=
  ⟨by decide,
    c10_malformed_fen_errors_and_preserves_state Game.init "8/8/8/8 w - - 0 1" (by decide)⟩

/-! ## Claim theorems: input validation (C4) -/

/-- Every outcome of `validateMove` is either acceptance or one of the six
stable rejection reasons. -/
theorem validateMove_error_classes (gen : MoveGenerator) (opts : MoveOptions)
    (color : Color) :
    (gen.validateMove opts color).valid = true ∨
    ((gen.validateMove opts color).valid = false ∧
      ((gen.validateMove opts color).error = some "Invalid square" ∨
        (gen.validateMove opts color).error = some "No piece at starting square" ∨
        (gen.validateMove opts color).error = some "Not your piece" ∨
        (gen.validateMove opts color).error = some "Cannot move to the same square" ∨
        (gen.validateMove opts color).error = some "Illegal move" ∨
        (gen.validateMove opts color).error = some "Pawn promotion required")) := by
  unfold MoveGenerator.validateMove
  repeat' split
  all_goals try simp
  all_goals (split <;> simp)

/-- Claim C4: an invalid move request never mutates state — validation is a
returned value carrying one of the six stable reasons, and `Game.move`
returns `none` with the game exactly unchanged. -/
theorem c4_invalid_requests_rejected_purely (g : Game) (opts : MoveOptions)
    (h : (g.moveGen.validateMove opts g.currentTurn).valid = false) :
    ((g.moveGen.validateMove opts g.currentTurn).error = some "Invalid square" ∨
      (g.moveGen.validateMove opts g.currentTurn).error = some "No piece at starting square" ∨
      (g.moveGen.validateMove opts g.currentTurn).error = some "Not your piece" ∨
      (g.moveGen.validateMove opts g.currentTurn).error =
        some "Cannot move to the same square" ∨
      (g.moveGen.validateMove opts g.currentTurn).error = some "Illegal move" ∨
      (g.moveGen.validateMove opts g.currentTurn).error = some "Pawn promotion required") ∧
    g.move opts = (none, g) := by
  constructor
  · rcases validateMove_error_classes g.moveGen opts g.currentTurn with hv | ⟨_, hc⟩
    · rw [hv] at h
      exact absurd h (by simp)
    · exact hc
  · unfold Game.move
    simp [h]

/-- Witness for C4: a malformed origin label on the initial position. -/
theorem c4_invalid_requests_rejected_purely_witness :
    (Game.init.moveGen.validateMove ⟨"e9", "e4", none⟩ Game.init.currentTurn).valid = false ∧
    (((Game.init.moveGen.validateMove ⟨"e9", "e4", none⟩ Game.init.currentTurn).error =
        some "Invalid square" ∨
      (Game.init.moveGen.validateMove ⟨"e9", "e4", none⟩ Game.init.currentTurn).error =
        some "No piece at starting square" ∨
      (Game.init.moveGen.validateMove ⟨"e9", "e4", none⟩ Game.init.currentTurn).error =
        some "Not your piece" ∨
      (Game.init.moveGen.validateMove ⟨"e9", "e4", none⟩ Game.init.currentTurn).error =
        some "Cannot move to the same square" ∨
      (Game.init.moveGen.validateMove ⟨"e9", "e4", none⟩ Game.init.currentTurn).error =
        some "Illegal move" ∨
      (Game.init.moveGen.validateMove ⟨"e9", "e4", none⟩ Game.init.currentTurn).error =
        some "Pawn promotion required") ∧
      Game.init.move ⟨"e9", "e4", none⟩ = (none, Game.init)) :=
  ⟨by decide, c4_invalid_requests_rejected_purely Game.init ⟨"e9", "e4", none⟩ (by decide)⟩

/-! ## Claim theorems: terminal statuses versus `Game.move` (C3) -/

/-- A successful `Game.move` leaves the stored status equal to the
recomputed one (or leaves the state untouched). -/
theorem move_status_step (g : Game) (opts : MoveOptions) :
    (g.move opts).2 = g ∨ (g.move opts).2.gameStatus = (g.move opts).2.computeStatus := by
  simp only [Game.move]
  repeat' split
  all_goals first | exact Or.inl rfl | exact Or.inr rfl

/-- `Game.undo` recomputes the status last (or leaves the state untouched). -/
theorem undo_status_step (g : Game) :
    (g.undo).2 = g ∨ (g.undo).2.gameStatus = (g.undo).2.computeStatus := by
  simp only [Game.undo]
  repeat' split
  all_goals first | exact Or.inl rfl | exact Or.inr rfl

/-- `Game.loadFen` recomputes the status last (or, on a parse error, the
caught exception leaves the state untouched). -/
theorem load_status_step (g : Game) (fen : String) :
    g.loadFenOrKeep fen = g ∨
    (g.loadFenOrKeep fen).gameStatus = (g.loadFenOrKeep fen).computeStatus := by
  unfold Game.loadFenOrKeep Game.loadFen
  cases FenParser.parse fen with
  | error e => exact Or.inl rfl
  | ok data => exact Or.inr rfl

/-- Every reachable game's stored status is the recomputed status. -/
theorem reachable_status_consistent {g : Game} (h : Reachable g) :
    g.gameStatus = g.computeStatus := by
  induction h with
  | init => decide
  | move g opts _ ih =>
    rcases move_status_step g opts with he | hc
    · rw [he]; exact ih
    · exact hc
  | undo g _ ih =>
    rcases undo_status_step g with he | hc
    · rw [he]; exact ih
    · exact hc
  | load g fen _ ih =>
    rcases load_status_step g fen with he | hc
    · rw [he]; exact ih
    · exact hc
  | reset g _ _ =>
    have hR : g.reset = Game.init := rfl
    rw [hR]
    decide

/-- When the (consistently stored) status is checkmate or stalemate, the side
to move has no legal moves. -/
theorem legalMoves_empty_of_terminal (g : Game)
    (hc : g.gameStatus = g.computeStatus)
    (hs : g.gameStatus = GameStatus.checkmate ∨ g.gameStatus = GameStatus.stalemate) :
    g.moveGen.generateLegalMoves g.currentTurn = [] := by
  rw [hc] at hs
  by_cases hcm : g.moveGen.isCheckmate g.currentTurn = true
  · unfold MoveGenerator.isCheckmate at hcm
    split at hcm
    · exact absurd hcm (by simp)
    · exact List.length_eq_zero.1 (of_decide_eq_true hcm)
  · by_cases hsm : g.moveGen.isStalemate g.currentTurn = true
    · unfold MoveGenerator.isStalemate at hsm
      split at hsm
      · exact absurd hsm (by simp)
      · exact List.length_eq_zero.1 (of_decide_eq_true hsm)
    · exfalso
      unfold Game.computeStatus at hs
      rw [if_neg hcm, if_neg hsm] at hs
      rcases hs with hs | hs <;> (repeat' split at hs) <;> simp_all

/-- `getPiece` through explicitly given coordinates. -/
theorem Board.getPiece_eq_getPieceAt {b : Board} {s : Square} {c : Coordinates}
    (h : squareToCoords s = some c) : b.getPiece s = b.getPieceAt c.row c.col := by
  unfold Board.getPiece
  rw [h]

/-- `getPieceAt` at in-range coordinates is a grid read. -/
theorem getPieceAt_fin (b : Board) (r cc : Fin 8) :
    b.getPieceAt (r.val : Int) (cc.val : Int) = b.grid r cc := by
  have hr := r.isLt
  have hc := cc.isLt
  have hcond : 0 ≤ (r.val : Int) ∧ (r.val : Int) ≤ 7 ∧ 0 ≤ (cc.val : Int) ∧
      (cc.val : Int) ≤ 7 := by omega
  unfold Board.getPieceAt
  rw [dif_pos hcond]
  congr 1

/-- Every valid square label is the canonical label of its coordinates. -/
theorem squareToCoords_canonical {s : Square} {c : Coordinates}
    (h : squareToCoords s = some c) :
    ∃ (r cc : Fin 8), c = ⟨(r.val : Int), (cc.val : Int)⟩ ∧ s = squareOfFin r cc := by
  obtain ⟨data⟩ := s
  rcases data with _ | ⟨f, _ | ⟨rk, _ | ⟨x, rest⟩⟩⟩ <;>
    simp only [squareToCoords] at h
  case nil => exact absurd h (by simp)
  case cons.nil => exact absurd h (by simp)
  case cons.cons.cons => exact absurd h (by simp)
  cases hdg : charDigit rk with
  | none => rw [hdg] at h; exact absurd h (by simp)
  | some d =>
    rw [hdg] at h
    have hdg' : 48 ≤ rk.toNat ∧ rk.toNat ≤ 57 ∧ d = rk.toNat - 48 := by
      unfold charDigit at hdg
      split at hdg
      · exact ⟨by omega, by omega, by simpa using hdg.symm⟩
      · exact absurd hdg (by simp)
    obtain ⟨hk1, hk2, hk3⟩ := hdg'
    simp only [Option.ite_none_right_eq_some, Option.some.injEq] at h
    obtain ⟨hrange, hc⟩ := h
    obtain ⟨hq1, hq2, hq3, hq4⟩ := hrange
    refine ⟨⟨((d : Int) - 1).toNat, by omega⟩, ⟨((f.toNat : Int) - 97).toNat, by omega⟩,
      ?_, ?_⟩
    · rw [← hc]
      simp only [Coordinates.mk.injEq]
      constructor <;> omega
    · have hf : Char.ofNat (97 + ((f.toNat : Int) - 97).toNat) = f := by
        have hn : 97 + ((f.toNat : Int) - 97).toNat = f.toNat := by omega
        rw [hn, Char.ofNat_toNat]
      have hrk : Char.ofNat (49 + ((d : Int) - 1).toNat) = rk := by
        have hn : 49 + ((d : Int) - 1).toNat = rk.toNat := by omega
        rw [hn, Char.ofNat_toNat]
      unfold squareOfFin
      rw [hf, hrk]

/-- A piece of the scanned color shows up in `findPieces` under its canonical
square label. -/
theorem mem_findPieces {b : Board} {color : Color} (r cc : Fin 8) (piece : Piece)
    (hg : b.grid r cc = some piece) (hcol : piece.color = color) :
    (squareOfFin r cc, piece) ∈ b.findPieces color := by
  unfold Board.findPieces
  rw [List.mem_flatMap]
  refine ⟨r, List.mem_finRange r, ?_⟩
  rw [List.mem_filterMap]
  exact ⟨cc, List.mem_finRange cc, by rw [hg]; simp [hcol]⟩

/-- If the whole legal-move set is empty, the per-square set of any own piece
is empty as well. -/
theorem generateLegalMovesFrom_empty (gen : MoveGenerator) (color : Color) (s : Square)
    (piece : Piece) (hp : gen.board.getPiece s = some piece) (hcol : piece.color = color)
    (hall : gen.generateLegalMoves color = []) :
    gen.generateLegalMovesFrom s color = [] := by
  obtain ⟨c, hsc⟩ : ∃ c, squareToCoords s = some c := by
    unfold Board.getPiece at hp
    cases hsc : squareToCoords s with
    | none => rw [hsc] at hp; exact absurd hp (by simp)
    | some c => exact ⟨c, rfl⟩
  obtain ⟨r, cc, hceq, hse⟩ := squareToCoords_canonical hsc
  have hgrid : gen.board.grid r cc = some piece := by
    rw [Board.getPiece_eq_getPieceAt hsc, hceq] at hp
    rw [← getPieceAt_fin gen.board r cc]
    exact hp
  have hmem := mem_findPieces r cc piece hgrid hcol
  by_contra hne
  obtain ⟨m, hm⟩ := List.exists_mem_of_ne_nil _ hne
  have hmm : m ∈ gen.generateLegalMoves color := by
    unfold MoveGenerator.generateLegalMoves
    rw [List.mem_flatMap]
    exact ⟨(squareOfFin r cc, piece), hmem, by rw [← hse]; exact hm⟩
  rw [hall] at hmm
  exact absurd hmm (List.not_mem_nil m)

/-- A request is always rejected when the mover's pieces have no moves. -/
theorem validateMove_invalid_of_empty (gen : MoveGenerator) (opts : MoveOptions)
    (color : Color)
    (hempty : ∀ piece, gen.board.getPiece opts.fromSq = some piece → piece.color = color →
      gen.generateLegalMovesFrom opts.fromSq color = []) :
    (gen.validateMove opts color).valid = false := by
  unfold MoveGenerator.validateMove
  repeat' split
  all_goals first | rfl | simp_all

/-- Claim C3 (amended): whenever the (recomputed-after-every-mutation) game
status of a reachable game is checkmate or stalemate, every `Game.move`
request is rejected with the state exactly unchanged.  (The three draw
statuses do NOT block moves — see the counterexample theorem.) -/
theorem c3_mate_or_stalemate_rejects_all_moves (g : Game) (hr : Reachable g)
    (hs : g.gameStatus = GameStatus.checkmate ∨ g.gameStatus = GameStatus.stalemate) :
    ∀ opts : MoveOptions, g.move opts = (none, g) := by
  intro opts
  have hall : g.moveGen.generateLegalMoves g.currentTurn = [] :=
    legalMoves_empty_of_terminal g (reachable_status_consistent hr) hs
  have hv : (g.moveGen.validateMove opts g.currentTurn).valid = false :=
    validateMove_invalid_of_empty g.moveGen opts g.currentTurn fun piece hp hc =>
      generateLegalMovesFrom_empty g.moveGen g.currentTurn opts.fromSq piece hp hc hall
  unfold Game.move
  simp [hv]

/-- Witness for the amended C3: the checkmated fool's-mate game rejects a
move request. -/
theorem c3_mate_or_stalemate_rejects_all_moves_witness :
    foolsMateGame.gameStatus = GameStatus.checkmate ∧
    foolsMateGame.move ⟨"e2", "e3", none⟩ = (none, foolsMateGame) :=
  ⟨by decide,
    c3_mate_or_stalemate_rejects_all_moves foolsMateGame
      (Reachable.move _ _ (Reachable.move _ _ (Reachable.move _ _
        (Reachable.move _ _ Reachable.init)))) (Or.inl (by decide)) _⟩

end Chess
